import Mathlib

/-!
Shallow embedding of the resume-scoring and job-ranking core of
`Task 10/cv_validator_app.py`, together with theorems settling the frozen
claims about it.

Modelling conventions:

* Python strings are modelled as `List Char` (`Str`); Python's `str.lower`
  is modelled on the ASCII range (as the source only ever compares ASCII
  keywords), `\s` is the Python whitespace class, `\w` the ASCII word class.
* Python floats are modelled as exact rationals (`ℚ`); `round(x, 1)` is
  modelled as decimal rounding half-to-even (`pyRound1`).
* The regexes the source uses are embedded through a small pattern AST
  (`Pat`) and a backtracking matcher (`pmatch`) whose candidate order
  mirrors Python's `re` semantics on this pattern subset: greedy
  quantifiers try longest first, alternation tries left first, `X?` tries
  the present branch first, scanning is leftmost.
* Fallible document extraction (PyMuPDF calls inside `try`/`except`) is
  modelled by giving each criterion evaluator an `Except String _` input:
  the `.error` case is the source's `except` branch.
* pandas dataframes are modelled as lists of records; the TF-IDF
  vectorizer and cosine similarity (scikit-learn, an external collaborator)
  are abstracted as a function argument that returns one similarity per
  job, and date parsing (`pd.to_datetime`) as a function argument
  returning an optional day number.
-/

abbrev Str := List Char

/-- Python's `\s` class (ASCII range): space, tab, newline, CR, FF, VT. -/
def isPySpace (c : Char) : Bool :=
  c = ' ' || c = '\t' || c = '\n' || c = '\r' || c = '\x0c' || c = '\x0b'

/-- Python's `\w` class restricted to ASCII: letters, digits, underscore. -/
def isWordChar (c : Char) : Bool :=
  c.isAlphanum || c = '_'

/-- ASCII uppercase/lowercase pairs, used to model `str.lower`. -/
def lowerPairs : List (Char × Char) :=
  [('A','a'), ('B','b'), ('C','c'), ('D','d'), ('E','e'), ('F','f'), ('G','g'),
   ('H','h'), ('I','i'), ('J','j'), ('K','k'), ('L','l'), ('M','m'), ('N','n'),
   ('O','o'), ('P','p'), ('Q','q'), ('R','r'), ('S','s'), ('T','t'), ('U','u'),
   ('V','v'), ('W','w'), ('X','x'), ('Y','y'), ('Z','z')]

/-- `str.lower` on one character (ASCII range). -/
def pyLower (c : Char) : Char :=
  (((lowerPairs.find? (fun p => p.1 = c)).map (fun p => p.2)).getD c)

/-- `str.lower` on a string. -/
def lowerStr (s : Str) : Str := s.map pyLower

/-- `str.strip()`: drop leading and trailing whitespace. -/
def stripChars (s : Str) : Str :=
  ((s.dropWhile isPySpace).reverse.dropWhile isPySpace).reverse

/-- One pass of `re.sub(r"\s+", " ", s)`: `inRun` records whether we are
inside a whitespace run whose single `' '` was already emitted. -/
def collapseGo : Bool → Str → Str
  | _, [] => []
  | inRun, c :: cs =>
    if isPySpace c then
      if inRun then collapseGo true cs else ' ' :: collapseGo true cs
    else c :: collapseGo false cs

/-- `re.sub(r"\s+", " ", s)`: replace each maximal whitespace run by one space. -/
def collapseWs (s : Str) : Str := collapseGo false s

/-- Numeric value of a digit string. -/
def natOfDigits (ds : Str) : Nat :=
  ds.foldl (fun n c => n * 10 + (c.toNat - 48)) 0

/-- Python's `pat in s` substring test. -/
def strContains : Str → Str → Bool
  | s, pat =>
    match s with
    | [] => pat = []
    | _ :: tl => pat.isPrefixOf s || strContains tl pat

/-!
## A small regex engine for the pattern subset used by the source

Constructors cover exactly what the source's patterns need: literals,
single-character classes, greedy star/plus over a class, a capturing
digit run `(\d+)`, sequencing, alternation, option, the `\b` word-boundary
assertion and negative lookahead.
-/

inductive Pat where
  | lit   : Str → Pat
  | one   : (Char → Bool) → Pat
  | many0 : (Char → Bool) → Pat
  | many1 : (Char → Bool) → Pat
  | num   : Pat
  | seq   : Pat → Pat → Pat
  | alt   : Pat → Pat → Pat
  | opt   : Pat → Pat
  | wb    : Pat
  | nla   : Pat → Pat

/-- `\b` holds between `prev` and the head of `s` (start/end count as non-word). -/
def atWordBoundary (prev : Option Char) (s : Str) : Bool :=
  let a := match prev with | some c => isWordChar c | none => false
  let b := match s with | c :: _ => isWordChar c | [] => false
  a != b

/-- All splits `(taken, rest)` of the maximal prefix of `s` in class `p`,
longest taken first; `withEmpty` appends the empty split last (for `*`). -/
def greedySplits (p : Char → Bool) (s : Str) (withEmpty : Bool) : List (Str × Str) :=
  let run := s.takeWhile p
  let rest := s.dropWhile p
  let nonempty := (List.range run.length).map
    (fun i => (run.take (run.length - i), run.drop (run.length - i) ++ rest))
  if withEmpty then nonempty ++ [([], s)] else nonempty

/-- One backtracking step: all ways `p` can match a prefix of `s`, in the
priority order Python's `re` uses, each with the updated previous
character, the remaining input and the numeric captures made. -/
def pmatch : Pat → Option Char → Str → List (Option Char × Str × List Nat)
  | .lit w, prev, s =>
    if w.isPrefixOf s then
      [(if w = [] then prev else w.getLast?, s.drop w.length, [])]
    else []
  | .one p, _, s =>
    match s with
    | c :: cs => if p c then [(some c, cs, [])] else []
    | [] => []
  | .many0 p, prev, s =>
    (greedySplits p s true).map
      (fun t => (if t.1 = [] then prev else t.1.getLast?, t.2, []))
  | .many1 p, _, s =>
    (greedySplits p s false).map (fun t => (t.1.getLast?, t.2, []))
  | .num, _, s =>
    (greedySplits Char.isDigit s false).map
      (fun t => (t.1.getLast?, t.2, [natOfDigits t.1]))
  | .seq p q, prev, s =>
    (pmatch p prev s).flatMap
      (fun r => (pmatch q r.1 r.2.1).map
        (fun r2 => (r2.1, r2.2.1, r.2.2 ++ r2.2.2)))
  | .alt p q, prev, s => pmatch p prev s ++ pmatch q prev s
  | .opt p, prev, s => pmatch p prev s ++ [(prev, s, [])]
  | .wb, prev, s => if atWordBoundary prev s then [(prev, s, [])] else []
  | .nla p, prev, s => if (pmatch p prev s).isEmpty then [(prev, s, [])] else []

/-- `re.finditer` on the tail of the text: scan left to right, take the
highest-priority match at each position, continue after it (non-overlapping).
Returns each match's consumed text and captures.  `fuel` bounds the scan
(callers pass `s.length + 1`). -/
def reScan (p : Pat) : Nat → Option Char → Str → List (Str × List Nat)
  | 0, _, _ => []
  | fuel + 1, prev, s =>
    match pmatch p prev s with
    | (pv, rest, caps) :: _ =>
      let consumed := s.take (s.length - rest.length)
      if rest.length < s.length then
        (consumed, caps) :: reScan p fuel pv rest
      else
        -- zero-width match: advance one character, as Python does
        match s with
        | [] => [(consumed, caps)]
        | c :: cs => (consumed, caps) :: reScan p fuel (some c) cs
    | [] =>
      match s with
      | [] => []
      | c :: cs => reScan p fuel (some c) cs

/-- All non-overlapping matches of `p` in `s` (text, captures), leftmost first. -/
def reMatches (p : Pat) (s : Str) : List (Str × List Nat) :=
  reScan p (s.length + 1) none s

/-- `re.search(p, s) is not None`. -/
def reTest (p : Pat) (s : Str) : Bool :=
  !(reMatches p s).isEmpty

/-- Captures of the first match, if any (`re.search` + `groups()`). -/
def reFirstCaptures (p : Pat) (s : Str) : Option (List Nat) :=
  (reMatches p s).head?.map (fun m => m.2)

/-- Helpers for building patterns from string literals. -/
def plit (s : String) : Pat := .lit s.data

def pseq : List Pat → Pat
  | [] => .lit []
  | [p] => p
  | p :: ps => .seq p (pseq ps)

def palts : List Pat → Pat
  | [] => .lit []
  | [p] => p
  | p :: ps => .alt p (palts ps)

/-- `\bw\b` for a literal word `w`. -/
def pword (s : String) : Pat := pseq [.wb, plit s, .wb]

def pws0 : Pat := .many0 isPySpace
def pws1 : Pat := .many1 isPySpace

/-!
## Skill normalization (`_SKILL_SYNONYMS`, `normalize_token`, vocabulary)
-/

/-- `_SKILL_SYNONYMS` from the source, in source order. -/
def skillSynonyms : List (Str × Str) :=
  [("js".data,         "javascript".data),
   ("reactjs".data,    "react".data),
   ("node".data,       "node.js".data),
   ("nodejs".data,     "node.js".data),
   ("expressjs".data,  "express".data),
   ("postgres".data,   "postgresql".data),
   ("mongo".data,      "mongodb".data),
   ("k8s".data,        "kubernetes".data),
   ("ml".data,         "machine learning".data),
   ("dl".data,         "deep learning".data),
   ("tf".data,         "tensorflow".data),
   ("springboot".data, "spring boot".data),
   ("restapi".data,    "rest api".data),
   ("rest".data,       "rest api".data)]

/-- First-match association lookup (`dict.get`). -/
def lookupSyn : List (Str × Str) → Str → Option Str
  | [], _ => none
  | p :: ps, k => if p.1 = k then some p.2 else lookupSyn ps k

/-- The `strip` / `lower` / collapse-whitespace part of `normalize_token`. -/
def cleanToken (s : Str) : Str :=
  collapseWs (lowerStr (stripChars s))

/-- `normalize_token`: clean, then map through the synonym table. -/
def normalize_token (s : Str) : Str :=
  (lookupSyn skillSynonyms (cleanToken s)).getD (cleanToken s)

/-- `_GENERIC_EMPLOYMENT_WORDS` from the source. -/
def genericEmploymentWords : List Str :=
  ["intern".data, "internship".data, "trainee".data, "entry level".data,
   "entry-level".data, "junior".data, "associate".data, "senior".data,
   "lead".data, "mid".data, "mid-level".data, "graduate".data,
   "undergraduate".data, "student".data, "fresher".data, "probationary".data,
   "full time".data, "full-time".data, "part time".data, "part-time".data,
   "contract".data, "temporary".data, "permanent".data]

/-- A character of the class `[\-.]`. -/
def isDashDot (c : Char) : Bool := c = '-' || c = '.'

/-- A character of the class `[sd]`. -/
def isSD (c : Char) : Bool := c = 's' || c = 'd'

/-- `TECH_KEYWORD_VARIANTS`: each label with its detector patterns, in
source order.  Patterns are the source's regexes over lowercased text. -/
def techKeywordVariants : List (String × List Pat) :=
  [("Java",          [pseq [.wb, plit "java", .wb, .nla (pseq [pws0, plit "script"])]]),
   ("Python",        [pword "python"]),
   ("JavaScript",    [pword "javascript", pword "js"]),
   ("C#",            [pseq [.wb, plit "c", pws0, plit "#", .wb], pword "csharp",
                      pseq [.wb, plit "c", pws0, plit "sharp", .wb]]),
   ("C++",           [pseq [.wb, plit "c++", .wb]]),
   ("MySQL",         [pword "mysql"]),
   ("PostgreSQL",    [pseq [.wb, plit "postgres", .opt (plit "ql"), .wb]]),
   ("MongoDB",       [pseq [.wb, plit "mongo", .opt (plit "db"), .wb]]),
   ("Oracle",        [pword "oracle"]),
   ("Git",           [pword "git"]),
   ("GitHub",        [pword "github"]),
   ("GitLab",        [pword "gitlab"]),
   ("HTML5",         [pword "html5", pword "html"]),
   ("CSS3",          [pword "css3", pword "css"]),
   ("React",         [pseq [.wb, plit "react", .opt (palts [plit ".js", plit "js"]), .wb]]),
   ("Angular",       [pword "angular", pword "angularjs"]),
   ("Vue.js",        [pseq [.wb, plit "vue", .opt (palts [plit ".js", plit "js"]), .wb]]),
   ("Node.js",       [pseq [.wb, plit "node", .opt (palts [plit ".js", plit "js"]), .wb]]),
   ("Express",       [pseq [.wb, plit "express", .opt (palts [plit ".js", plit "js"]), .wb]]),
   ("Django",        [pword "django"]),
   ("Flask",         [pword "flask"]),
   ("Spring Boot",   [pseq [.wb, plit "spring", pws0, plit "boot", .wb], pword "springboot"]),
   ("Spring",        [pword "spring"]),
   ("Android",       [pword "android"]),
   ("iOS",           [pword "ios"]),
   ("Flutter",       [pword "flutter"]),
   ("React Native",  [pseq [.wb, plit "react", pws0, plit "native", .wb]]),
   ("AWS",           [pword "aws", pseq [.wb, plit "amazon", pws1, plit "web", pws1, plit "services", .wb]]),
   ("Azure",         [pword "azure"]),
   ("GCP",           [pword "gcp", pseq [.wb, plit "google", pws1, plit "cloud", .wb]]),
   ("Docker",        [pword "docker"]),
   ("Kubernetes",    [pword "kubernetes", pword "k8s"]),
   ("REST API",      [pseq [.wb, plit "rest", .opt (plit "ful"), pws0, plit "api",
                            .opt (plit "s"), .wb]]),
   ("GraphQL",       [pword "graphql"]),
   ("Microservices", [pseq [.wb, plit "microservice", .opt (plit "s"), .wb]]),
   ("Agile",         [pword "agile"]),
   ("Scrum",         [pword "scrum"]),
   ("JIRA",          [pword "jira"]),
   ("TypeScript",    [pword "typescript"]),
   ("PHP",           [pword "php"]),
   ("Ruby",          [pword "ruby"]),
   ("Go",            [pword "golang", pword "go"]),
   ("Kotlin",        [pword "kotlin"]),
   ("Swift",         [pword "swift"]),
   ("Scala",         [pword "scala"]),
   ("Rust",          [pword "rust"]),
   ("Next.js",       [pseq [.wb, plit "next", .opt (plit "."), plit "js", .wb]]),
   ("Tailwind",      [pword "tailwind"]),
   ("Redux",         [pword "redux"]),
   ("Laravel",       [pword "laravel"]),
   ("ASP.NET",       [pseq [.wb, plit "asp.net", .wb], pseq [.wb, plit "asp", pws1, plit "net", .wb]]),
   ("FastAPI",       [pword "fastapi"]),
   ("SQL",           [pword "sql", pseq [.wb, plit "t-sql", .wb], pseq [.wb, plit "pl.sql", .wb]]),
   ("Redis",         [pword "redis"]),
   ("Elasticsearch", [pword "elasticsearch"]),
   ("SQLite",        [pword "sqlite"]),
   ("DynamoDB",      [pword "dynamodb"]),
   ("Cassandra",     [pword "cassandra"]),
   ("CI/CD",         [pseq [.wb, plit "ci/cd", .wb], pword "cicd", pword "jenkins",
                      pseq [.wb, plit "github", pws1, plit "actions", .wb],
                      pseq [.wb, plit "gitlab", pws1, plit "ci", .wb]]),
   ("Terraform",     [pword "terraform"]),
   ("Linux",         [pword "linux", pword "ubuntu", pword "centos"]),
   ("gRPC",          [pword "grpc"]),
   ("Machine Learning", [pseq [.wb, plit "machine", pws1, plit "learning", .wb]]),
   ("Deep Learning", [pseq [.wb, plit "deep", pws1, plit "learning", .wb]]),
   ("TensorFlow",    [pword "tensorflow"]),
   ("PyTorch",       [pword "pytorch"]),
   ("Pandas",        [pword "pandas"]),
   ("NumPy",         [pword "numpy"]),
   ("scikit-learn",  [pseq [.wb, plit "scikit", .one isDashDot, plit "learn", .wb], pword "sklearn"]),
   ("Spark",         [pseq [.wb, plit "apache", pws1, plit "spark", .wb], pword "pyspark", pword "spark"]),
   ("Hadoop",        [pword "hadoop"]),
   ("Tableau",       [pword "tableau"]),
   ("Power BI",      [pseq [.wb, plit "power", pws1, plit "bi", .wb], pword "powerbi"]),
   ("Selenium",      [pword "selenium"]),
   ("JUnit",         [pword "junit"]),
   ("Jest",          [pword "jest"]),
   ("Pytest",        [pword "pytest"]),
   ("Figma",         [pword "figma"]),
   ("Photoshop",     [pword "photoshop"])]

/-- `_build_known_tech_skills()`: normalized labels of the keyword table. -/
def knownTechSkills : List Str :=
  techKeywordVariants.map (fun kv => normalize_token kv.1.data)

/-- First-seen-order deduplication with a seen accumulator. -/
def dedupSeen : List Str → List Str → List Str
  | _, [] => []
  | seen, x :: xs =>
    if seen.contains x then dedupSeen seen xs
    else x :: dedupSeen (x :: seen) xs

/-- `list(dict.fromkeys(...))`: keep the first occurrence of each element. -/
def dedupKeepFirst (l : List Str) : List Str := dedupSeen [] l

/-- `extract_skills_from_text`: pad and collapse the text, lower it, test
each label's patterns in order, collect normalized labels, dedup. -/
def extract_skills_from_text (text : Str) : List Str :=
  if text = [] then []
  else
    let t := lowerStr (' ' :: collapseWs text ++ [' '])
    dedupKeepFirst <| techKeywordVariants.filterMap (fun kv =>
      if kv.2.any (fun p => reTest p t) then some (normalize_token kv.1.data) else none)

/-!
## `clean_skill_list`
-/

/-- The separator class of `re.split(r"[,|/•\n]+", s)`. -/
def isSkillSep (c : Char) : Bool :=
  c = ',' || c = '|' || c = '/' || c = '•' || c = '\n'

/-- `re.split` on runs of a character class (keeps empty boundary fields).
`inRun` records whether the current separator run already emitted a field. -/
def splitGo (p : Char → Bool) : Bool → Str → Str → List Str
  | _, acc, [] => [acc.reverse]
  | inRun, acc, c :: cs =>
    if p c then
      if inRun then splitGo p true acc cs
      else acc.reverse :: splitGo p true [] cs
    else splitGo p false (c :: acc) cs

def splitRuns (p : Char → Bool) (acc : Str) (s : Str) : List Str :=
  splitGo p false acc s

/-- `clean_skill_list` accepts a list or a separator-delimited string. -/
inductive SkillsInput where
  | ofList : List Str → SkillsInput
  | ofStr  : Str → SkillsInput

/-- The list view of a `clean_skill_list` input: a string is split on
separators, stripped, and empty parts dropped. -/
def skillsInputList : SkillsInput → List Str
  | .ofList xs => xs
  | .ofStr s => ((splitRuns isSkillSep [] s).map stripChars).filter (fun p => p ≠ [])

/-- The per-token filter of `clean_skill_list`. -/
def cleanSkillStep (s : Str) : Option Str :=
  let ns := normalize_token s
  if ns.length < 2 then none
  else if genericEmploymentWords.contains ns then none
  else if ¬ (knownTechSkills.contains ns) then none
  else some ns

/-- `clean_skill_list`: normalize each token, keep known non-employment
tech skills, dedup keeping first occurrences. -/
def clean_skill_list (inp : SkillsInput) : List Str :=
  dedupKeepFirst ((skillsInputList inp).filterMap cleanSkillStep)

/-!
## Seniority detection (`_RE_INTERN`, `_RE_JUNIOR`, `_RE_SENIOR`,
`_RE_YEARS`, `_RE_EXP_REQ` and the classifiers)
-/

/-- `_RE_INTERN`: `\b(intern(?:ship)?)\b`. -/
def reIntern : Pat := pseq [.wb, plit "intern", .opt (plit "ship"), .wb]

/-- `_RE_JUNIOR` alternatives between the word boundaries, in source order. -/
def reJunior : Pat :=
  pseq [.wb,
        palts [plit "trainee", plit "undergraduate", plit "student", plit "fresher",
               pseq [plit "entry", .many0 (fun c => isPySpace c || c = '-'), plit "level"],
               plit "junior", pseq [plit "jr", .opt (plit ".")], plit "associate",
               plit "graduate", plit "probationary",
               pseq [plit "it", pws1, plit "graduate"],
               pseq [plit "software", pws1, plit "graduate"],
               pseq [plit "it", pws1, plit "trainee"],
               pseq [plit "software", pws1, plit "trainee"],
               pseq [plit "it", pws1, plit "associate"],
               pseq [plit "software", pws1, plit "associate"]],
        .wb]

/-- `_RE_SENIOR` alternatives between the word boundaries, in source order. -/
def reSenior : Pat :=
  pseq [.wb,
        palts [plit "senior", pseq [plit "sr", .opt (plit ".")], plit "lead",
               plit "manager", plit "head", plit "architect", plit "principal",
               pseq [plit "tech", pws1, plit "lead"],
               pseq [plit "team", pws1, plit "lead"],
               plit "director", plit "vp",
               pseq [plit "vice", pws1, plit "president"],
               plit "cto", plit "cio", plit "chief"],
        .wb]

/-- `_RE_YEARS`: `(\d+)\+?\s*years?\b`. -/
def reYears : Pat :=
  pseq [.num, .opt (plit "+"), pws0, plit "year", .opt (plit "s"), .wb]

/-- `_RE_EXP_REQ`, three alternatives in source order. -/
def reExpReq : Pat :=
  palts
    [pseq [.opt (palts [plit "minimum",
                        pseq [plit "at", pws1, plit "least"],
                        pseq [plit "more", pws1, plit "than"],
                        plit "over",
                        pseq [plit "should", pws1, plit "have"],
                        pseq [plit "must", pws1, plit "have"],
                        pseq [plit "require", .opt (.one isSD)]]),
           pws0, .num, pws0,
           .opt (palts [plit "+", pseq [plit "to", pws0, .many1 Char.isDigit]]),
           pws0, plit "year", .opt (plit "s"), pws0,
           .opt (pseq [plit "of", pws1]),
           .opt (palts [pseq [plit "relevant", pws1],
                        pseq [plit "working", pws1],
                        pseq [plit "industry", pws1]]),
           plit "experience"],
     pseq [plit "experience", pws1, plit "of", pws1, .num, pws0,
           .opt (plit "+"), pws0, plit "year", .opt (plit "s")],
     pseq [plit "experience", pws0, .one (fun c => c = ':' || c = '-'), pws0, .num]]

/-- `estimate_cv_years`: the largest `(\d+)` captured by `_RE_YEARS`. -/
def estimate_cv_years (t : Str) : Nat :=
  ((reMatches reYears t).flatMap (fun m => m.2)).foldr max 0

/-- `estimate_cv_level`: the source's ordered cascade over the resume text
(the source matches with `re.IGNORECASE`; we lower the text instead). -/
def estimate_cv_level (cvText : Str) : Str :=
  if cvText = [] then "intern_junior".data
  else
    let t := lowerStr cvText
    if reTest reIntern t then "intern_junior".data
    else if reTest reJunior t then "intern_junior".data
    else if reTest reSenior t then "senior".data
    else
      let yrs := estimate_cv_years t
      if yrs ≥ 5 then "senior".data
      else if yrs ≥ 2 then "mid".data
      else "intern_junior".data

/-- `_job_min_years`: the first numeric group of the first `_RE_EXP_REQ`
match, if any. -/
def jobMinYears (t : Str) : Option Nat :=
  match reFirstCaptures reExpReq t with
  | some (n :: _) => some n
  | _ => none

/-- `classify_job_level` over (lowered) title and description. -/
def classify_job_level (title desc : Str) : Str :=
  let combined := lowerStr (title ++ (' ' :: desc))
  if reTest reIntern combined || reTest reJunior combined then "intern_junior".data
  else
    match jobMinYears combined with
    | some yrs =>
      if yrs ≥ 5 then "senior".data
      else if yrs ≥ 2 then "mid".data
      else if reTest reSenior combined then "senior".data
      else "intern_junior".data
    | none =>
      if reTest reSenior combined then "senior".data
      else "intern_junior".data

/-!
## Criterion evaluators

Each evaluator's fallible document extraction is its `Except` input; the
`.error` case is the source's `except` branch.
-/

/-- The result record shape shared by simple checks. -/
structure BasicResult where
  status : Str
  value : Str
  score : ℚ
deriving DecidableEq

/-- `check_cv_page_count`. -/
def check_cv_page_count (input : Except Str Nat) : BasicResult :=
  match input with
  | .error _ => { status := "error".data, value := "Error".data, score := 0 }
  | .ok n =>
    if n = 1 then { status := "success".data, value := "1 page ✓".data, score := 10 }
    else if n = 2 then { status := "success".data, value := "2 pages ✓".data, score := 8 }
    else { status := "warning".data, value := "pages".data, score := 4 }

/-- The extracted layout facts `check_formatting_quality` reads: the
rounded font sizes seen in all spans, and the x0 of each first-page block. -/
structure FmtInput where
  fontSizes : List ℚ
  firstPageBlockX0 : List ℚ
deriving DecidableEq

/-- Number of distinct font sizes (the source collects them in a set). -/
def distinctCount (l : List ℚ) : Nat := (l.dedup).length

/-- `check_formatting_quality`: one issue if the distinct font-size count
is < 2 or > 6, one issue if some first-page block starts left of x = 36;
score 10 − 2·issues clamped to [0, 10].  On extraction failure the source
returns score 5 (not 0). -/
def check_formatting_quality (input : Except Str FmtInput) : BasicResult :=
  match input with
  | .error _ => { status := "error".data, value := "Error".data, score := 5 }
  | .ok fmt =>
    let fontIssue : Nat := if distinctCount fmt.fontSizes < 2 then 1
      else if distinctCount fmt.fontSizes > 6 then 1 else 0
    let marginIssue : Nat :=
      if fmt.firstPageBlockX0 ≠ [] ∧ fmt.firstPageBlockX0.foldr min 1000 < 36
      then 1 else 0
    let issues := fontIssue + marginIssue
    let score : ℚ := max 0 (min 10 (10 - 2 * (issues : ℚ)))
    if issues ≠ 0 then { status := "warning".data, value := "issues".data, score := score }
    else { status := "success".data, value := "Good ✓".data, score := 10 }

/-- The email address pattern `\b[A-Za-z0-9._%+-]+@[A-Za-z0-9.-]+\.[A-Za-z]{2,}\b`. -/
def isEmailLocalChar (c : Char) : Bool :=
  c.isAlphanum && c.toNat < 128 || c = '.' || c = '_' || c = '%' || c = '+' || c = '-'

def isEmailDomainChar (c : Char) : Bool :=
  c.isAlphanum && c.toNat < 128 || c = '.' || c = '-'

def isAsciiLetter (c : Char) : Bool := c.isAlpha && c.toNat < 128

def reEmail : Pat :=
  pseq [.wb, .many1 isEmailLocalChar, plit "@", .many1 isEmailDomainChar,
        plit ".", .one isAsciiLetter, .many1 isAsciiLetter, .wb]

/-- `re.findall` of the email pattern followed by `dict.fromkeys` dedup. -/
def findEmails (text : Str) : List Str :=
  dedupKeepFirst ((reMatches reEmail text).map (fun m => m.1))

/-- The informal-word list of `check_professional_email`. -/
def emailSlang : List Str :=
  ["cool".data, "hot".data, "sexy".data, "boss".data, "king".data, "queen".data,
   "swag".data, "ninja".data, "devil".data, "angel".data, "xoxo".data]

/-- `re.search(r"\d{4,}", local part)`: some run of four or more digits. -/
def hasLongDigitRun (s : Str) : Bool :=
  reTest (pseq [.one Char.isDigit, .one Char.isDigit, .one Char.isDigit,
                .one Char.isDigit]) s

/-- `len(re.findall(r"[._-]", local part))`. -/
def symbolCount (s : Str) : Nat :=
  (s.filter (fun c => c = '.' || c = '_' || c = '-')).length

/-- The three red flags on an email local part. -/
def emailFlagInformal (lpart : Str) : Bool := emailSlang.any (fun w => strContains lpart w)

def emailFlagDigits (lpart : Str) : Bool := hasLongDigitRun lpart

def emailFlagSymbols (lpart : Str) : Bool := symbolCount lpart > 3

/-- Risk points: the informal-word flag adds 2, the others 1 each. -/
def emailRiskPoints (lpart : Str) : Nat :=
  (if emailFlagInformal lpart then 2 else 0) +
  (if emailFlagDigits lpart then 1 else 0) +
  (if emailFlagSymbols lpart then 1 else 0)

/-- The reasons list, in source order. -/
def emailReasons (lpart : Str) : List Str :=
  (if emailFlagInformal lpart then ["contains informal word".data] else []) ++
  (if emailFlagDigits lpart then ["has long number sequence".data] else []) ++
  (if emailFlagSymbols lpart then ["uses many symbols".data] else [])

structure EmailResult where
  status : Str
  value : Str
  score : ℚ
  emails : List Str
  riskLevel : Str
  reasons : List Str
deriving DecidableEq

/-- `check_professional_email`. -/
def check_professional_email (input : Except Str Str) : EmailResult :=
  match input with
  | .error _ =>
    { status := "error".data, value := "Error".data, score := 0,
      emails := [], riskLevel := [], reasons := [] }
  | .ok text =>
    let emails := findEmails text
    match emails with
    | [] =>
      { status := "error".data, value := "Missing".data, score := 0,
        emails := [], riskLevel := "N/A".data, reasons := [] }
    | e :: _ =>
      let lpart := lowerStr (e.takeWhile (fun c => c ≠ '@'))
      let pts := emailRiskPoints lpart
      let (risk, score) : Str × ℚ :=
        if pts = 0 then ("Low".data, 10)
        else if pts ≤ 2 then ("Medium".data, 8)
        else ("High".data, 6)
      { status := "success".data, value := "Email present ✓".data, score := score,
        emails := emails, riskLevel := risk, reasons := emailReasons lpart }

/-!
## `check_skills_separation`

The PDF-side work (collecting blocks, sorting them by (y, x) and
splitting into stripped lines) is the document collaborator's; the
evaluator's input is that ordered line list (or the extraction error).
-/

def softHeaders : List Str :=
  ["soft skill".data, "soft skills".data, "interpersonal".data, "personal skills".data]

def techHeaders : List Str :=
  ["technical skill".data, "technical skills".data, "tech stack".data,
   "technologies".data, "programming".data]

def skillsStopWords : List Str :=
  ["project".data, "experience".data, "education".data, "qualification".data,
   "reference".data, "contact".data, "certification".data, "certificate".data,
   "achievement".data, "profile".data, "summary".data, "declaration".data,
   "language".data, "interest".data, "volunteer".data]

/-- One line of the section state machine.  State: current section
(`none`, `"soft"`, or `"technical"`) and both buckets so far. -/
def skillsSepStep (st : Option Str × List Str × List Str) (line : Str) :
    Option Str × List Str × List Str :=
  let ll := lowerStr line
  let (cur, soft, tech) := st
  if line = [] then st
  else if (softHeaders.any (fun h => strContains ll h)) ∧ line.length < 30 then
    (some "soft".data, soft, tech)
  else if (techHeaders.any (fun h => strContains ll h)) ∧ line.length < 30 then
    (some "technical".data, soft, tech)
  else if (skillsStopWords.any (fun w => strContains ll w)) ∧ line.length < 30 ∧
          ¬ (strContains ll "skill".data = true) then
    (none, soft, tech)
  else if cur = some "soft".data ∧ line.length > 2 ∧ ¬ (strContains ll "skill".data = true) then
    (cur, soft ++ [line], tech)
  else if cur = some "technical".data ∧ line.length > 1 ∧ ¬ (strContains ll "skill".data = true) then
    (cur, soft, tech ++ [line])
  else st

structure SkillsSepResult where
  status : Str
  value : Str
  score : ℚ
  softCount : Nat
  techCount : Nat
deriving DecidableEq

/-- The two deduplicated buckets collected from the (stripped) lines. -/
def skillsSepBuckets (lines : List Str) : List Str × List Str :=
  let fin := (lines.map stripChars).foldl skillsSepStep (none, [], [])
  (dedupKeepFirst fin.2.1, dedupKeepFirst fin.2.2)

/-- `check_skills_separation`. -/
def check_skills_separation (input : Except Str (List Str)) : SkillsSepResult :=
  match input with
  | .error _ =>
    { status := "error".data, value := "Error".data, score := 0,
      softCount := 0, techCount := 0 }
  | .ok lines =>
    let (soft, tech) := skillsSepBuckets lines
    if soft ≠ [] ∧ tech ≠ [] then
      { status := "success".data, value := "Both present ✓".data, score := 10,
        softCount := soft.length, techCount := tech.length }
    else if tech ≠ [] then
      { status := "warning".data, value := "Partial".data, score := 6,
        softCount := 0, techCount := tech.length }
    else if soft ≠ [] then
      { status := "warning".data, value := "Partial".data, score := 5,
        softCount := soft.length, techCount := 0 }
    else
      { status := "error".data, value := "Not found".data, score := 2,
        softCount := 0, techCount := 0 }

/-!
## Score aggregation (`calculate_overall_score`)
-/

/-- Decimal rounding half-to-even at one decimal place, the idealized
model of Python's `round(x, 1)`. -/
def roundHalfEven (q : ℚ) : ℤ :=
  if q - ⌊q⌋ = 1/2 then (if ⌊q⌋ % 2 = 0 then ⌊q⌋ else ⌊q⌋ + 1)
  else round q

def pyRound1 (q : ℚ) : ℚ := (roundHalfEven (10 * q) : ℚ) / 10

/-- The weight table of `calculate_overall_score`: the 14 rule-based
criteria plus the LLM score, whose weight halves when the LLM score is
unstable (`llm_std ≥ 2.0`). -/
def overallWeights (llmStd : ℚ) : List (Str × ℚ) :=
  [("page_count".data, 5/100), ("gpa".data, 5/100), ("professional_email".data, 8/100),
   ("photo".data, 4/100), ("ol_al".data, 5/100), ("formatting".data, 6/100),
   ("specialization".data, 4/100), ("github".data, 8/100), ("skills".data, 8/100),
   ("keywords".data, 10/100), ("contact".data, 6/100), ("action_verbs".data, 7/100),
   ("achievements".data, 7/100), ("summary".data, 5/100),
   ("llm".data, if llmStd ≥ 2 then 5/100 else 10/100)]

structure OverallResult where
  status : Str
  score : ℚ
  grade : Str
deriving DecidableEq

/-- `calculate_overall_score` over a score lookup (absent criteria read 0
through `dict.get`). -/
def calculate_overall_score (scores : Str → ℚ) (llmStd : ℚ) : OverallResult :=
  let ws := overallWeights llmStd
  let totalScore := (ws.map (fun kw => scores kw.1 * kw.2)).sum
  let totalWeight := (ws.map (fun kw => kw.2)).sum
  let final := if totalWeight = 0 then 0 else totalScore / totalWeight
  if final ≥ 85/10 then
    { status := "success".data, score := pyRound1 final, grade := "Excellent".data }
  else if final ≥ 7 then
    { status := "success".data, score := pyRound1 final, grade := "Good".data }
  else if final ≥ 55/10 then
    { status := "warning".data, score := pyRound1 final, grade := "Fair".data }
  else
    { status := "warning".data, score := pyRound1 final, grade := "Needs Improvement".data }

/-!
## Job ranking (`get_job_recommendations` and its stages)

A job row as produced by `load_job_data`/`build_combined_fields`; the CSV
loading itself is the job-corpus collaborator, so the pipeline takes the
loaded rows (or `none` for a failed load) as input.  The TF-IDF
vector space (scikit-learn) is abstracted as a similarity function
returning one cosine similarity per job text, and `pd.to_datetime` as an
optional day-number parser.
-/

structure Job where
  title : Str
  company : Str
  location : Str
  description : Str
  descClean : Str
  rawSkills : Str
  closingDate : Str
  url : Str
  jobSkillList : List Str
  jobText : Str
deriving DecidableEq

structure JobMatch where
  title : Str
  company : Str
  location : Str
  description : Str
  url : Str
  closingDate : Str
  matchPercentage : ℚ
  matchLevel : Str
  cvLevelUsed : Str
  matchedSkills : List Str
  missingSkills : List Str
deriving DecidableEq

/-- The fields of the evaluator-results dict that
`build_user_skills_from_cv` reads: the keyword validator's
`found_keywords` and the GitHub check's `message`. -/
structure CvResults where
  keywordsFound : List Str
  githubMessage : Str

/-- `build_user_skills_from_cv`. -/
def build_user_skills_from_cv (results : CvResults) (cvText : Str) : List Str :=
  clean_skill_list (.ofList
    (results.keywordsFound.map normalize_token ++
     extract_skills_from_text cvText ++
     extract_skills_from_text results.githubMessage))

/-- `_SENIORITY_ALLOWED` with the source's `.get` default. -/
def seniorityAllowed (cvLevel : Str) : List Str :=
  if cvLevel = "intern_junior".data then ["intern_junior".data, "mid".data]
  else if cvLevel = "mid".data then ["intern_junior".data, "mid".data, "senior".data]
  else if cvLevel = "senior".data then ["mid".data, "senior".data]
  else ["intern_junior".data, "mid".data]

/-- The per-job level the filter computes (`desc_clean or description`). -/
def jobLevelOf (j : Job) : Str :=
  classify_job_level j.title (if j.descClean ≠ [] then j.descClean else j.description)

/-- `apply_seniority_handling` on rows without a precomputed level column
(the recommendation pipeline's case): "loose" keeps the allowed set,
anything else is strict equality. -/
def apply_seniority_handling (jobs : List Job) (cvLevel : Str) (mode : Str) : List Job :=
  if mode = "loose".data then
    jobs.filter (fun j => (seniorityAllowed cvLevel).contains (jobLevelOf j))
  else
    jobs.filter (fun j => jobLevelOf j = cvLevel)

/-- The location stage: pandas `str.contains(loc, case, na)` with a
literal filter string, skipped for empty or `"All"`. -/
def locationStage (loc : Str) (jobs : List Job) : List Job :=
  if loc ≠ [] ∧ loc ≠ "All".data then
    jobs.filter (fun j => strContains (lowerStr j.location) (lowerStr loc))
  else jobs

/-- `filter_active_jobs`: keep rows whose closing date parses and is not
before today. -/
def filter_active_jobs (parseDate : Str → Option ℤ) (today : ℤ) (jobs : List Job) :
    List Job :=
  jobs.filter (fun j => match parseDate j.closingDate with
    | some d => today ≤ d
    | none => false)

/-- `_LEVEL_HINT` with the source's `.get` default. -/
def levelHint (cvLevel : Str) : Str :=
  if cvLevel = "intern_junior".data then "intern junior trainee entry level graduate".data
  else if cvLevel = "mid".data then "mid level experienced engineer developer".data
  else if cvLevel = "senior".data then "senior lead architect principal manager".data
  else "junior entry level".data

/-- The TF-IDF query text: level hint plus space-joined user skills. -/
def queryText (cvLevel : Str) (userSkills : List Str) : Str :=
  stripChars (levelHint cvLevel ++ (' ' :: (List.intercalate " ".data userSkills)))

/-- The skill-overlap ratio: |jobSkills ∩ cvSkills| over the larger set
size, 0 for an empty (cleaned) job skill set. -/
def overlapRatio (cvSet : List Str) (jobSkills : List Str) : ℚ :=
  let js := clean_skill_list (.ofList jobSkills)
  if js = [] then 0
  else ((js.filter (fun s => cvSet.contains s)).length : ℚ) /
       ((max js.length cvSet.length : Nat) : ℚ)

/-- Pair each job with `0.80 · similarity + 0.20 · overlap`. -/
def scoreJobs (userSkills : List Str) (jobs : List Job) (sims : List ℚ) :
    List (Job × ℚ) :=
  List.zipWith (fun j s => (j, s * (80/100) + overlapRatio userSkills j.jobSkillList * (20/100)))
    jobs sims

/-- Descending final-score order for the ranked list. -/
def scoreGE (a b : Job × ℚ) : Prop := b.2 ≤ a.2

instance : DecidableRel scoreGE := fun a b => inferInstanceAs (Decidable (b.2 ≤ a.2))

/-- `drop_duplicates(subset=["title", "company"], keep="first")`. -/
def dedupByTitleCompany : List (Job × ℚ) → List (Str × Str) → List (Job × ℚ)
  | [], _ => []
  | x :: xs, seen =>
    if seen.contains (x.1.title, x.1.company) then dedupByTitleCompany xs seen
    else x :: dedupByTitleCompany xs ((x.1.title, x.1.company) :: seen)

/-- Sort descending by final score, drop duplicate (title, company) rows
keeping the first, truncate to `topN`. -/
def rankScored (scored : List (Job × ℚ)) (topN : Nat) : List (Job × ℚ) :=
  (dedupByTitleCompany (List.insertionSort scoreGE scored) []).take topN

/-- Python's `<` on strings (lexicographic by code point). -/
def strLt : Str → Str → Bool
  | [], [] => false
  | [], _ :: _ => true
  | _ :: _, [] => false
  | a :: as, b :: bs => if a = b then strLt as bs else decide (a < b)

def strLe (a b : Str) : Prop := strLt b a = false

instance : DecidableRel strLe := fun a b => inferInstanceAs (Decidable (strLt b a = false))

/-- Python's `sorted` on a set of strings. -/
def sortedStrs (l : List Str) : List Str := List.insertionSort strLe l

/-- One output row of `get_job_recommendations`. -/
def mkJobMatch (cvLevel : Str) (cvSet : List Str) (p : Job × ℚ) : JobMatch :=
  let jobSkills := clean_skill_list (.ofList p.1.jobSkillList)
  let matched := sortedStrs (jobSkills.filter (fun s => cvSet.contains s))
  let missing := sortedStrs (jobSkills.filter (fun s => ¬ cvSet.contains s))
  let descShort :=
    if p.1.description.length > 220 then p.1.description.take 220 ++ "...".data
    else p.1.description
  let pct := pyRound1 (min 100 (max 0 (p.2 * 100)))
  { title := p.1.title, company := p.1.company, location := p.1.location,
    description := if descShort = [] then "Please refer the vacancy.".data else descShort,
    url := p.1.url, closingDate := p.1.closingDate,
    matchPercentage := pct,
    matchLevel := if pct ≥ 70 then "Excellent".data
      else if pct ≥ 50 then "Good".data else "Potential".data,
    cvLevelUsed := cvLevel,
    matchedSkills := matched.take 8, missingSkills := missing.take 8 }

/-- `get_job_recommendations`. -/
def get_job_recommendations (df : Option (List Job)) (results : CvResults)
    (cvText : Str) (locationFilter : Str) (topN : Nat) (seniorityMode : Str)
    (parseDate : Str → Option ℤ) (today : ℤ)
    (tfidfSims : List Str → Str → List ℚ) : List JobMatch :=
  match df with
  | none => []
  | some df0 =>
    if df0 = [] then []
    else
      let userSkills := build_user_skills_from_cv results cvText
      if userSkills = [] then []
      else
        let df1 := locationStage locationFilter df0
        if df1 = [] then []
        else
          let df2 := filter_active_jobs parseDate today df1
          if df2 = [] then []
          else
            let cvLevel := estimate_cv_level cvText
            let df3 := apply_seniority_handling df2 cvLevel seniorityMode
            if df3 = [] then []
            else
              let query := queryText cvLevel userSkills
              let sims := tfidfSims (df3.map (fun j => j.jobText)) query
              let scored := scoreJobs userSkills df3 sims
              (rankScored scored topN).map (mkJobMatch cvLevel userSkills)

/-- The (title, company) deduplication key of the ranked list. -/
def jobKey (p : Job × ℚ) : Str × Str := (p.1.title, p.1.company)

/-!
## Concrete fixtures used to witness and refute claims
-/

/-- A job row whose title carries an explicit senior keyword and whose
text has no intern/junior keyword and no minimum-years phrase. -/
def seniorJob : Job :=
  { title := "Senior Backend Engineer".data, company := "Acme".data,
    location := "Colombo".data, description := "".data, descClean := "".data,
    rawSkills := "".data, closingDate := "Mon Jan 05 2026".data, url := "".data,
    jobSkillList := [], jobText := "Senior Backend Engineer Acme".data }

/-- An entry-level job row with an empty derived skill list. -/
def plainJob : Job :=
  { title := "Software Developer".data, company := "Acme".data,
    location := "Colombo".data, description := "".data, descClean := "".data,
    rawSkills := "".data, closingDate := "Mon Jan 05 2026".data, url := "".data,
    jobSkillList := [], jobText := "Software Developer Acme".data }

/-- Evaluator results carrying no keyword hits and no GitHub evidence. -/
def emptyCvResults : CvResults := { keywordsFound := [], githubMessage := [] }

/-!
## Lemmas about the string primitives
-/

theorem pyLower_snd_fix : ∀ p ∈ lowerPairs, pyLower p.2 = p.2 := by decide

theorem pyLower_idem (c : Char) : pyLower (pyLower c) = pyLower c := by
  cases h : lowerPairs.find? (fun q => q.1 = c) with
  | some p =>
    have hmem := List.mem_of_find?_eq_some h
    have h2 : pyLower c = p.2 := by simp [pyLower, h]
    rw [h2]; exact pyLower_snd_fix p hmem
  | none =>
    have h2 : pyLower c = c := by simp [pyLower, h]
    rw [h2, h2]

theorem lower_pairs_space : ∀ p ∈ lowerPairs, isPySpace p.2 = isPySpace p.1 := by decide

theorem isPySpace_pyLower (c : Char) : isPySpace (pyLower c) = isPySpace c := by
  cases h : lowerPairs.find? (fun q => q.1 = c) with
  | some p =>
    have hmem := List.mem_of_find?_eq_some h
    have hc : p.1 = c := by simpa using List.find?_some h
    have h2 : pyLower c = p.2 := by simp [pyLower, h]
    rw [h2, ← hc]
    exact lower_pairs_space p hmem
  | none =>
    have h2 : pyLower c = c := by simp [pyLower, h]
    rw [h2]

theorem collapseGo_true (cs : Str) :
    collapseGo true cs = collapseGo false (cs.dropWhile isPySpace) := by
  induction cs with
  | nil => rfl
  | cons c t ih =>
    by_cases hc : isPySpace c
    · rw [List.dropWhile_cons_of_pos hc]
      rw [collapseGo, if_pos hc, if_pos rfl]
      exact ih
    · rw [List.dropWhile_cons_of_neg hc]
      rw [collapseGo, collapseGo]
      simp [hc]

theorem collapseWs_nil : collapseWs [] = [] := rfl

theorem collapseWs_cons (c : Char) (cs : Str) :
    collapseWs (c :: cs) =
      if isPySpace c then ' ' :: collapseWs (cs.dropWhile isPySpace)
      else c :: collapseWs cs := by
  show collapseGo false (c :: cs) = _
  by_cases hc : isPySpace c
  · rw [collapseGo, if_pos hc, if_neg (by simp), if_pos hc, collapseGo_true]; rfl
  · rw [collapseGo, if_neg hc, if_neg hc]; rfl

/-- Induction following the whitespace-run structure of `collapseWs`. -/
theorem collapseWs_induction (P : Str → Prop) (base : P [])
    (spc : ∀ c cs, isPySpace c = true → P (cs.dropWhile isPySpace) → P (c :: cs))
    (nsp : ∀ c cs, isPySpace c = false → P cs → P (c :: cs)) : ∀ l, P l := by
  have H : ∀ (n : Nat) (l : Str), l.length ≤ n → P l := by
    intro n
    induction n with
    | zero =>
      intro l hl
      cases l with
      | nil => exact base
      | cons a t => simp at hl
    | succ n ih =>
      intro l hl
      cases l with
      | nil => exact base
      | cons c cs =>
        by_cases hc : isPySpace c
        · refine spc c cs hc (ih _ ?_)
          have := (List.dropWhile_sublist (l := cs) isPySpace).length_le
          simp only [List.length_cons] at hl
          omega
        · refine nsp c cs (by simpa using hc) (ih _ ?_)
          simp only [List.length_cons] at hl
          omega
  exact fun l => H l.length l le_rfl

theorem isPySpace_comp_pyLower : (fun d => isPySpace (pyLower d)) = isPySpace :=
  funext isPySpace_pyLower

theorem dropWhile_lowerStr (l : Str) :
    (lowerStr l).dropWhile isPySpace = lowerStr (l.dropWhile isPySpace) := by
  simp only [lowerStr, List.dropWhile_map, Function.comp_def, isPySpace_comp_pyLower]

theorem lowerStr_lowerStr (l : Str) : lowerStr (lowerStr l) = lowerStr l := by
  simp only [lowerStr, List.map_map]
  exact List.map_congr_left (fun c _ => pyLower_idem c)

theorem collapseWs_lowerStr (l : Str) : collapseWs (lowerStr l) = lowerStr (collapseWs l) := by
  induction l using collapseWs_induction with
  | base => simp [lowerStr, collapseWs_nil]
  | spc c cs h ih =>
    have hc : isPySpace (pyLower c) = true := by rw [isPySpace_pyLower]; exact h
    simp only [lowerStr, List.map_cons]
    rw [collapseWs_cons, if_pos hc, collapseWs_cons, if_pos h]
    have hdrop := dropWhile_lowerStr cs
    simp only [lowerStr] at hdrop ih ⊢
    rw [hdrop, ih]
    simp only [List.map_cons]
    have hsp : pyLower ' ' = ' ' := by decide
    rw [hsp]
  | nsp c cs h ih =>
    have hc : isPySpace (pyLower c) = false := by rw [isPySpace_pyLower]; simpa using h
    simp only [lowerStr, List.map_cons]
    rw [collapseWs_cons, if_neg (by simp [hc]), collapseWs_cons, if_neg (by simp [h])]
    simp only [lowerStr] at ih
    rw [ih]
    simp [List.map_cons]

theorem head?_dropWhile_not (p : Char → Bool) :
    ∀ (l : Str) (c : Char), (l.dropWhile p).head? = some c → p c = false := by
  intro l
  induction l with
  | nil => intro c h; simp [List.dropWhile] at h
  | cons a t ih =>
    intro c h
    by_cases ha : p a
    · rw [List.dropWhile_cons_of_pos ha] at h
      exact ih c h
    · rw [List.dropWhile_cons_of_neg ha] at h
      simp at h
      rw [← h]
      simpa using ha

theorem dropWhile_eq_self_of_head (p : Char → Bool) (l : Str)
    (h : ∀ c, l.head? = some c → p c = false) : l.dropWhile p = l := by
  cases l with
  | nil => rfl
  | cons a t =>
    have := h a rfl
    rw [List.dropWhile_cons_of_neg (by simp [this])]

theorem collapseWs_head_not_space (l : Str)
    (h : ∀ c, l.head? = some c → isPySpace c = false) :
    ∀ c, (collapseWs l).head? = some c → isPySpace c = false := by
  cases l with
  | nil => intro c hc; rw [collapseWs_nil] at hc; simp at hc
  | cons a t =>
    intro c hc
    have ha := h a rfl
    rw [collapseWs_cons, if_neg (by simp [ha])] at hc
    simp at hc
    rw [← hc]; exact ha

theorem collapseWs_idem (l : Str) : collapseWs (collapseWs l) = collapseWs l := by
  induction l using collapseWs_induction with
  | base => rw [collapseWs_nil, collapseWs_nil]
  | spc c cs h ih =>
    rw [collapseWs_cons, if_pos h]
    rw [collapseWs_cons, if_pos (by decide : isPySpace ' ' = true)]
    have hhead : ∀ d, ((cs.dropWhile isPySpace).dropWhile isPySpace).head? = some d →
        isPySpace d = false := by
      intro d hd; exact head?_dropWhile_not isPySpace _ d hd
    have hm : (cs.dropWhile isPySpace).dropWhile isPySpace = cs.dropWhile isPySpace := by
      apply dropWhile_eq_self_of_head
      intro d hd; exact head?_dropWhile_not isPySpace cs d hd
    have hcm : (collapseWs (cs.dropWhile isPySpace)).dropWhile isPySpace
        = collapseWs (cs.dropWhile isPySpace) := by
      apply dropWhile_eq_self_of_head
      exact collapseWs_head_not_space _ (fun d hd => head?_dropWhile_not isPySpace cs d hd)
    rw [hcm, ih]
  | nsp c cs h ih =>
    rw [collapseWs_cons, if_neg (by simp [h])]
    rw [collapseWs_cons, if_neg (by simp [h]), ih]

theorem getLast?_cons_of_ne_nil (a : Char) (l : Str) (h : l ≠ []) :
    (a :: l).getLast? = l.getLast? := by
  cases l with
  | nil => exact absurd rfl h
  | cons b t => exact List.getLast?_cons_cons

theorem getLast?_of_suffix (l₁ l₂ : Str) (h : l₁ <:+ l₂) (hne : l₁ ≠ []) :
    l₁.getLast? = l₂.getLast? := by
  obtain ⟨t, rfl⟩ := h
  exact (List.getLast?_append_of_ne_nil t hne).symm

theorem collapseWs_ne_nil (l : Str) (h : l ≠ []) : collapseWs l ≠ [] := by
  cases l with
  | nil => exact absurd rfl h
  | cons c cs =>
    rw [collapseWs_cons]
    by_cases hc : isPySpace c
    · rw [if_pos hc]; simp
    · rw [if_neg hc]; simp

theorem dropWhile_ne_nil_of_ne (p : Char → Bool) (cs : Str)
    (h : cs.dropWhile p ≠ []) : cs ≠ [] := by
  intro hcs; rw [hcs] at h; simp [List.dropWhile] at h

theorem collapseWs_getLast_not_space (l : Str)
    (hl : ∀ c, l.getLast? = some c → isPySpace c = false) :
    ∀ c, (collapseWs l).getLast? = some c → isPySpace c = false := by
  induction l using collapseWs_induction with
  | base => intro c hc; rw [collapseWs_nil] at hc; simp at hc
  | spc c0 cs h ih =>
    intro c hc
    rw [collapseWs_cons, if_pos h] at hc
    by_cases hm : cs.dropWhile isPySpace = []
    · exfalso
      by_cases hcs : cs = []
      · subst hcs
        have := hl c0 rfl
        rw [h] at this; simp at this
      · have hall : ∀ x ∈ cs, isPySpace x = true := by
          rw [← List.dropWhile_eq_nil_iff]; exact hm
        have hgl : cs.getLast? = some (cs.getLast hcs) := List.getLast?_eq_getLast cs hcs
        have hmem : cs.getLast hcs ∈ cs := List.getLast_mem hcs
        have hsp := hall _ hmem
        have hns := hl (cs.getLast hcs)
          (by rw [getLast?_cons_of_ne_nil c0 cs hcs]; exact hgl)
        rw [hsp] at hns; simp at hns
    · have hne := collapseWs_ne_nil _ hm
      rw [getLast?_cons_of_ne_nil _ _ hne] at hc
      have hcs : cs ≠ [] := dropWhile_ne_nil_of_ne _ _ hm
      refine ih ?_ c hc
      intro d hd
      have hsfx := getLast?_of_suffix _ cs (List.dropWhile_suffix isPySpace) hm
      exact hl d (by rw [getLast?_cons_of_ne_nil c0 cs hcs, ← hsfx]; exact hd)
  | nsp c0 cs h ih =>
    intro c hc
    rw [collapseWs_cons, if_neg (by simp [h])] at hc
    by_cases hcs : cs = []
    · subst hcs
      rw [collapseWs_nil] at hc
      simp at hc
      rw [← hc]; simpa using h
    · have hne := collapseWs_ne_nil cs hcs
      rw [getLast?_cons_of_ne_nil _ _ hne] at hc
      refine ih ?_ c hc
      intro d hd
      exact hl d (by rw [getLast?_cons_of_ne_nil c0 cs hcs]; exact hd)

theorem stripChars_prefix_dropWhile (s : Str) :
    stripChars s <+: s.dropWhile isPySpace := by
  obtain ⟨t, ht⟩ := List.dropWhile_suffix (l := (s.dropWhile isPySpace).reverse) isPySpace
  refine ⟨t.reverse, ?_⟩
  have : (s.dropWhile isPySpace).reverse.reverse
      = (t ++ (s.dropWhile isPySpace).reverse.dropWhile isPySpace).reverse := by
    rw [ht]
  simpa [stripChars, List.reverse_append] using this.symm

theorem stripChars_head_not_space (s : Str) :
    ∀ c, (stripChars s).head? = some c → isPySpace c = false := by
  intro c hc
  obtain ⟨t, ht⟩ := stripChars_prefix_dropWhile s
  apply head?_dropWhile_not isPySpace s c
  rw [← ht]
  cases hb : stripChars s with
  | nil => rw [hb] at hc; simp at hc
  | cons b bs => rw [hb] at hc; simp at hc; simpa using hc

theorem stripChars_getLast_not_space (s : Str) :
    ∀ c, (stripChars s).getLast? = some c → isPySpace c = false := by
  intro c hc
  rw [List.getLast?_eq_head?_reverse] at hc
  simp only [stripChars, List.reverse_reverse] at hc
  exact head?_dropWhile_not isPySpace _ c hc

theorem stripChars_eq_self (y : Str)
    (h1 : ∀ c, y.head? = some c → isPySpace c = false)
    (h2 : ∀ c, y.getLast? = some c → isPySpace c = false) :
    stripChars y = y := by
  have hy1 : y.dropWhile isPySpace = y := dropWhile_eq_self_of_head _ _ h1
  have hy2 : y.reverse.dropWhile isPySpace = y.reverse := by
    apply dropWhile_eq_self_of_head
    intro c hc
    exact h2 c (by rw [List.getLast?_eq_head?_reverse]; exact hc)
  rw [stripChars, hy1, hy2, List.reverse_reverse]

theorem lowerStr_head_not_space (z : Str)
    (h : ∀ c, z.head? = some c → isPySpace c = false) :
    ∀ c, (lowerStr z).head? = some c → isPySpace c = false := by
  intro c hc
  rw [lowerStr, List.head?_map] at hc
  cases hz : z.head? with
  | none => rw [hz] at hc; simp at hc
  | some d =>
    rw [hz] at hc; simp at hc
    rw [← hc, isPySpace_pyLower]
    exact h d hz

theorem lowerStr_getLast_not_space (z : Str)
    (h : ∀ c, z.getLast? = some c → isPySpace c = false) :
    ∀ c, (lowerStr z).getLast? = some c → isPySpace c = false := by
  intro c hc
  rw [lowerStr, List.getLast?_map] at hc
  cases hz : z.getLast? with
  | none => rw [hz] at hc; simp at hc
  | some d =>
    rw [hz] at hc; simp at hc
    rw [← hc, isPySpace_pyLower]
    exact h d hz

theorem cleanToken_idem (s : Str) : cleanToken (cleanToken s) = cleanToken s := by
  have hstrip : stripChars (cleanToken s) = cleanToken s := by
    apply stripChars_eq_self
    · exact collapseWs_head_not_space _
        (lowerStr_head_not_space _ (stripChars_head_not_space s))
    · exact collapseWs_getLast_not_space _
        (lowerStr_getLast_not_space _ (stripChars_getLast_not_space s))
  have hlower : lowerStr (cleanToken s) = cleanToken s := by
    show lowerStr (collapseWs (lowerStr (stripChars s))) = _
    rw [← collapseWs_lowerStr, lowerStr_lowerStr]; rfl
  show collapseWs (lowerStr (stripChars (cleanToken s))) = cleanToken s
  rw [hstrip, hlower]
  show collapseWs (collapseWs (lowerStr (stripChars s))) = _
  rw [collapseWs_idem]; rfl

theorem lookupSyn_mem : ∀ (ps : List (Str × Str)) (k v : Str),
    lookupSyn ps k = some v → (k, v) ∈ ps := by
  intro ps
  induction ps with
  | nil => intro k v h; simp [lookupSyn] at h
  | cons p pt ih =>
    intro k v h
    rw [lookupSyn] at h
    by_cases hp : p.1 = k
    · rw [if_pos hp] at h
      simp at h
      have hpkv : p = (k, v) := Prod.ext hp h
      rw [← hpkv]
      exact List.mem_cons_self p pt
    · rw [if_neg hp] at h
      exact List.mem_cons_of_mem _ (ih k v h)

theorem synonyms_values_fixed : ∀ p ∈ skillSynonyms, normalize_token p.2 = p.2 := by decide

theorem normalize_token_idem (s : Str) :
    normalize_token (normalize_token s) = normalize_token s := by
  cases h : lookupSyn skillSynonyms (cleanToken s) with
  | some v =>
    have h1 : normalize_token s = v := by rw [normalize_token, h]; rfl
    rw [h1]
    exact synonyms_values_fixed _ (lookupSyn_mem _ _ _ h)
  | none =>
    have h1 : normalize_token s = cleanToken s := by rw [normalize_token, h]; rfl
    rw [h1, normalize_token, cleanToken_idem, h]
    rfl

/-!
## Lemmas about deduplication, ranking and list plumbing
-/

theorem dedupSeen_sublist : ∀ (l seen : List Str), List.Sublist (dedupSeen seen l) l := by
  intro l
  induction l with
  | nil => intro seen; simp [dedupSeen]
  | cons x xs ih =>
    intro seen
    rw [dedupSeen]
    by_cases hx : seen.contains x
    · rw [if_pos hx]
      exact (ih seen).trans (List.sublist_cons_self x xs)
    · rw [if_neg hx]
      exact (ih (x :: seen)).cons₂ x

theorem mem_dedupSeen : ∀ (l seen : List Str) (y : Str),
    y ∈ dedupSeen seen l ↔ y ∈ l ∧ seen.contains y = false := by
  intro l
  induction l with
  | nil => intro seen y; simp [dedupSeen]
  | cons x xs ih =>
    intro seen y
    rw [dedupSeen]
    by_cases hx : seen.contains x
    · rw [if_pos hx, ih]
      constructor
      · rintro ⟨hy, hs⟩
        exact ⟨List.mem_cons_of_mem x hy, hs⟩
      · rintro ⟨hy, hs⟩
        rcases List.mem_cons.mp hy with h | h
        · subst h; rw [hx] at hs; cases hs
        · exact ⟨h, hs⟩
    · rw [if_neg hx]
      constructor
      · intro hy
        rcases List.mem_cons.mp hy with h | h
        · subst h
          exact ⟨List.mem_cons_self y xs, by simpa using hx⟩
        · obtain ⟨h1, h2⟩ := (ih (x :: seen) y).mp h
          simp only [List.contains_cons, Bool.or_eq_false_iff] at h2
          exact ⟨List.mem_cons_of_mem x h1, h2.2⟩
      · rintro ⟨hy, hs⟩
        rcases List.mem_cons.mp hy with h | h
        · subst h; exact List.mem_cons_self y _
        · by_cases hyx : y = x
          · subst hyx; exact List.mem_cons_self y _
          · refine List.mem_cons_of_mem x ((ih (x :: seen) y).mpr ⟨h, ?_⟩)
            simp only [List.contains_cons, Bool.or_eq_false_iff]
            refine ⟨?_, hs⟩
            simpa using hyx

theorem dedupSeen_nodup : ∀ (l seen : List Str), (dedupSeen seen l).Nodup := by
  intro l
  induction l with
  | nil => intro seen; simp [dedupSeen]
  | cons x xs ih =>
    intro seen
    rw [dedupSeen]
    by_cases hx : seen.contains x
    · rw [if_pos hx]; exact ih seen
    · rw [if_neg hx]
      refine List.Nodup.cons ?_ (ih (x :: seen))
      intro hmem
      have h2 := ((mem_dedupSeen xs (x :: seen) x).mp hmem).2
      simp at h2

theorem dedupKeepFirst_sublist (l : List Str) : List.Sublist (dedupKeepFirst l) l :=
  dedupSeen_sublist l []

theorem dedupKeepFirst_nodup (l : List Str) : (dedupKeepFirst l).Nodup :=
  dedupSeen_nodup l []

theorem mem_dedupKeepFirst (l : List Str) (y : Str) :
    y ∈ dedupKeepFirst l ↔ y ∈ l := by
  rw [dedupKeepFirst, mem_dedupSeen]
  simp

theorem filterMap_sublist_map {α β : Type} (f : α → Option β) (g : α → β)
    (hf : ∀ x y, f x = some y → y = g x) :
    ∀ l : List α, List.Sublist (l.filterMap f) (l.map g) := by
  intro l
  induction l with
  | nil => simp
  | cons x xs ih =>
    rw [List.map_cons]
    cases hx : f x with
    | none =>
      rw [List.filterMap_cons_none hx]
      exact ih.trans (List.sublist_cons_self _ _)
    | some y =>
      rw [List.filterMap_cons_some hx, hf x y hx]
      exact ih.cons₂ _

theorem mem_zipWith {α β γ : Type} (f : α → β → γ) :
    ∀ (l₁ : List α) (l₂ : List β) (z : γ), z ∈ List.zipWith f l₁ l₂ →
      ∃ a ∈ l₁, ∃ b ∈ l₂, z = f a b := by
  intro l₁
  induction l₁ with
  | nil => intro l₂ z h; simp at h
  | cons a t ih =>
    intro l₂ z h
    cases l₂ with
    | nil => simp at h
    | cons b u =>
      rw [List.zipWith_cons_cons] at h
      rcases List.mem_cons.mp h with h | h
      · exact ⟨a, List.mem_cons_self a t, b, List.mem_cons_self b u, h⟩
      · obtain ⟨a', ha', b', hb', hz⟩ := ih u z h
        exact ⟨a', List.mem_cons_of_mem a ha', b', List.mem_cons_of_mem b hb', hz⟩

/-!
## Lemmas about the ranked-list construction
-/

instance : IsTotal (Job × ℚ) scoreGE :=
  ⟨fun a b => le_total b.2 a.2⟩

instance : IsTrans (Job × ℚ) scoreGE :=
  ⟨fun _ _ _ hab hbc => le_trans hbc hab⟩

theorem dedupBTC_sublist : ∀ (l : List (Job × ℚ)) (seen : List (Str × Str)),
    List.Sublist (dedupByTitleCompany l seen) l := by
  intro l
  induction l with
  | nil => intro seen; simp [dedupByTitleCompany]
  | cons x xs ih =>
    intro seen
    rw [dedupByTitleCompany]
    by_cases hx : seen.contains (x.1.title, x.1.company)
    · rw [if_pos hx]
      exact (ih seen).trans (List.sublist_cons_self x xs)
    · rw [if_neg hx]
      exact (ih _).cons₂ x

theorem dedupBTC_not_seen : ∀ (l : List (Job × ℚ)) (seen : List (Str × Str))
    (p : Job × ℚ), p ∈ dedupByTitleCompany l seen → seen.contains (jobKey p) = false := by
  intro l
  induction l with
  | nil => intro seen p hp; simp [dedupByTitleCompany] at hp
  | cons x xs ih =>
    intro seen p hp
    rw [dedupByTitleCompany] at hp
    by_cases hx : seen.contains (x.1.title, x.1.company)
    · rw [if_pos hx] at hp
      exact ih seen p hp
    · rw [if_neg hx] at hp
      rcases List.mem_cons.mp hp with h | h
      · subst h; simpa [jobKey] using hx
      · have := ih _ p h
        simp only [List.contains_cons, Bool.or_eq_false_iff] at this
        exact this.2

theorem dedupBTC_keys_nodup : ∀ (l : List (Job × ℚ)) (seen : List (Str × Str)),
    ((dedupByTitleCompany l seen).map jobKey).Nodup := by
  intro l
  induction l with
  | nil => intro seen; simp [dedupByTitleCompany]
  | cons x xs ih =>
    intro seen
    rw [dedupByTitleCompany]
    by_cases hx : seen.contains (x.1.title, x.1.company)
    · rw [if_pos hx]; exact ih seen
    · rw [if_neg hx]
      rw [List.map_cons]
      refine List.Nodup.cons ?_ (ih _)
      intro hmem
      obtain ⟨p, hp, hkey⟩ := List.mem_map.mp hmem
      have := dedupBTC_not_seen xs _ p hp
      rw [hkey] at this
      simp [jobKey] at this

theorem dedupBTC_keeps_first : ∀ (l : List (Job × ℚ)) (seen : List (Str × Str))
    (p : Job × ℚ), p ∈ dedupByTitleCompany l seen →
      l.find? (fun q => jobKey q = jobKey p) = some p := by
  intro l
  induction l with
  | nil => intro seen p hp; simp [dedupByTitleCompany] at hp
  | cons x xs ih =>
    intro seen p hp
    rw [dedupByTitleCompany] at hp
    by_cases hx : seen.contains (x.1.title, x.1.company)
    · rw [if_pos hx] at hp
      have hfind := ih seen p hp
      have hne : jobKey x ≠ jobKey p := by
        intro hkey
        have h1 := dedupBTC_not_seen xs seen p hp
        rw [← hkey] at h1
        simp only [jobKey] at h1
        rw [hx] at h1
        simp at h1
      rw [List.find?_cons_of_neg _ (by simpa using hne)]
      exact hfind
    · rw [if_neg hx] at hp
      rcases List.mem_cons.mp hp with h | h
      · subst h
        rw [List.find?_cons_of_pos _ (by simp)]
      · have hfind := ih _ p h
        have hns := dedupBTC_not_seen xs _ p h
        simp only [List.contains_cons, Bool.or_eq_false_iff] at hns
        have hne : jobKey x ≠ jobKey p := by
          intro hkey
          have h1 := hns.1
          rw [← hkey] at h1
          simp [jobKey] at h1
        rw [List.find?_cons_of_neg _ (by simpa using hne)]
        exact hfind

theorem rankScored_sorted (scored : List (Job × ℚ)) (topN : Nat) :
    List.Sorted scoreGE (rankScored scored topN) := by
  have h1 : List.Sorted scoreGE (List.insertionSort scoreGE scored) :=
    List.sorted_insertionSort scoreGE scored
  have h2 : List.Sublist (rankScored scored topN) (List.insertionSort scoreGE scored) :=
    (List.take_sublist _ _).trans (dedupBTC_sublist _ [])
  exact List.Pairwise.sublist h2 h1

theorem rankScored_keys_nodup (scored : List (Job × ℚ)) (topN : Nat) :
    ((rankScored scored topN).map jobKey).Nodup := by
  have h1 := dedupBTC_keys_nodup (List.insertionSort scoreGE scored) []
  refine List.Nodup.sublist ?_ h1
  exact List.Sublist.map jobKey (List.take_sublist _ _)

theorem rankScored_length_le (scored : List (Job × ℚ)) (topN : Nat) :
    (rankScored scored topN).length ≤ topN := by
  rw [rankScored]
  exact List.length_take_le _ _

theorem rankScored_keeps_first (scored : List (Job × ℚ)) (topN : Nat)
    (p : Job × ℚ) (hp : p ∈ rankScored scored topN) :
    (List.insertionSort scoreGE scored).find? (fun q => jobKey q = jobKey p) = some p := by
  have hp2 : p ∈ dedupByTitleCompany (List.insertionSort scoreGE scored) [] :=
    (List.take_sublist _ _).mem hp
  exact dedupBTC_keeps_first _ [] p hp2

theorem rankScored_mem_scored (scored : List (Job × ℚ)) (topN : Nat)
    (p : Job × ℚ) (hp : p ∈ rankScored scored topN) : p ∈ scored := by
  have h2 : List.Sublist (rankScored scored topN) (List.insertionSort scoreGE scored) :=
    (List.take_sublist _ _).trans (dedupBTC_sublist _ [])
  have := h2.mem hp
  exact (List.perm_insertionSort scoreGE scored).mem_iff.mp this

/-!
## Claim theorems
-/

/-- C7: `normalize_token` is idempotent — lowercasing, whitespace
collapsing and the synonym-table mapping compose to a function with
`normalize_token (normalize_token x) = normalize_token x` for every
string `x` (no synonym value is itself a synonym key or otherwise changed
by a second pass). -/
theorem C7_normalize_token_idempotent (x : Str) :
    normalize_token (normalize_token x) = normalize_token x :=
  normalize_token_idem x

/-- C9 counterexample: on an extraction failure the formatting-quality
evaluator returns status "error" with score 5, not score 0 as claimed. -/
theorem C9_formatting_error_counterexample :
    (check_formatting_quality (.error "cannot open document".data)).status = "error".data ∧
    (check_formatting_quality (.error "cannot open document".data)).score = 5 ∧
    ((5 : ℚ) ≠ 0) := by
  refine ⟨rfl, rfl, by norm_num⟩

/-- C9 (amended): every embedded criterion evaluator is total at its
public interface — on document-extraction failure it returns a record with
status "error" instead of propagating the exception, with score 0 for the
page-count, professional-email and skills-separation evaluators but score
5 for the formatting-quality evaluator. -/
theorem C9_extraction_failure_degrades (e : Str) :
    (check_cv_page_count (.error e)).status = "error".data ∧
    (check_cv_page_count (.error e)).score = 0 ∧
    (check_professional_email (.error e)).status = "error".data ∧
    (check_professional_email (.error e)).score = 0 ∧
    (check_skills_separation (.error e)).status = "error".data ∧
    (check_skills_separation (.error e)).score = 0 ∧
    (check_formatting_quality (.error e)).status = "error".data ∧
    (check_formatting_quality (.error e)).score = 5 :=
  ⟨rfl, rfl, rfl, rfl, rfl, rfl, rfl, rfl⟩

/-- C2 counterexample: the fixed weight table of
`calculate_overall_score` sums to 0.98, not 1.0. -/
theorem C2_weights_sum_counterexample :
    ((overallWeights 0).map (fun kw => kw.2)).sum = 49/50 ∧ ((49 : ℚ)/50) ≠ 1 := by
  constructor
  · simp only [overallWeights, List.map_cons, List.map_nil, List.sum_cons, List.sum_nil]
    norm_num
  · norm_num

/-- C2 (amended): the fixed weight table has exactly 15 entries (the 14
rule-based criteria plus the LLM score), its weights sum to 0.98 — not
1.0 — and the returned overall score is the weighted mean of the
criterion scores under that table (the weighted sum divided by the actual
total weight 0.98), rounded to one decimal place. -/
theorem C2_overall_score_weighted_mean :
    (overallWeights 0).length = 15 ∧
    ((overallWeights 0).map (fun kw => kw.2)).sum = 49/50 ∧
    ∀ (scores : Str → ℚ) (llmStd : ℚ), llmStd < 2 →
      (calculate_overall_score scores llmStd).score =
        pyRound1 ((scores "page_count".data * (5/100) + scores "gpa".data * (5/100) +
          scores "professional_email".data * (8/100) + scores "photo".data * (4/100) +
          scores "ol_al".data * (5/100) + scores "formatting".data * (6/100) +
          scores "specialization".data * (4/100) + scores "github".data * (8/100) +
          scores "skills".data * (8/100) + scores "keywords".data * (10/100) +
          scores "contact".data * (6/100) + scores "action_verbs".data * (7/100) +
          scores "achievements".data * (7/100) + scores "summary".data * (5/100) +
          scores "llm".data * (10/100)) / (49/50)) := by
  refine ⟨rfl, ?_, ?_⟩
  · simp only [overallWeights, List.map_cons, List.map_nil, List.sum_cons, List.sum_nil]
    norm_num
  · intro scores llmStd hlt
    have hw : ¬ (llmStd ≥ 2) := not_le.mpr hlt
    simp only [calculate_overall_score, overallWeights, if_neg hw,
      List.map_cons, List.map_nil, List.sum_cons, List.sum_nil]
    have hsum : (5:ℚ)/100 + (5/100 + (8/100 + (4/100 + (5/100 + (6/100 + (4/100 + (8/100 +
        (8/100 + (10/100 + (6/100 + (7/100 + (7/100 + (5/100 + (10/100 + 0)))))))))))))) =
        49/50 := by norm_num
    rw [hsum]
    have h0 : ((49:ℚ)/50) ≠ 0 := by norm_num
    rw [if_neg h0]
    split_ifs <;> · simp only [] ; ring_nf

theorem C2_overall_score_weighted_mean_witness :
    (calculate_overall_score (fun _ => 10) 0).score =
      pyRound1 (((10:ℚ) * (5/100) + 10 * (5/100) + 10 * (8/100) + 10 * (4/100) +
        10 * (5/100) + 10 * (6/100) + 10 * (4/100) + 10 * (8/100) + 10 * (8/100) +
        10 * (10/100) + 10 * (6/100) + 10 * (7/100) + 10 * (7/100) + 10 * (5/100) +
        10 * (10/100)) / (49/50)) :=
  C2_overall_score_weighted_mean.2.2 (fun _ => 10) 0 (by norm_num)

/-- C5 counterexample: the skills-section-separation criterion scores a
technical-only resume 6 (the claim says 7), a soft-only resume 5 (the
claim says 6), and a generic "Skills" header with parseable content 2
(the claim says a seen header scores 4) — the source has no generic
"Skills" header state at all. -/
theorem C5_skills_separation_counterexample :
    (check_skills_separation (.ok ["Technical Skills".data, "Python".data])).score = 6 ∧
    ((6 : ℚ) ≠ 7) ∧
    (check_skills_separation (.ok ["Soft Skills".data, "Communication".data])).score = 5 ∧
    ((5 : ℚ) ≠ 6) ∧
    (check_skills_separation (.ok ["Skills".data, "Python, SQL".data])).score = 2 ∧
    ((2 : ℚ) ≠ 4) := by
  refine ⟨rfl, by norm_num, rfl, by norm_num, rfl, by norm_num⟩

/-- C5 (amended): for every layout-ordered line sequence the
skills-section-separation criterion scores: both buckets non-empty → 10
(success); technical bucket only → 6 (warning); soft bucket only → 5
(warning); neither bucket — whether or not any header was seen — → 2
(error). -/
theorem C5_skills_separation_scoring (lines : List Str) :
    ((check_skills_separation (.ok lines)).score = 10 ∧
      (check_skills_separation (.ok lines)).status = "success".data ∧
      0 < (check_skills_separation (.ok lines)).softCount ∧
      0 < (check_skills_separation (.ok lines)).techCount) ∨
    ((check_skills_separation (.ok lines)).score = 6 ∧
      (check_skills_separation (.ok lines)).status = "warning".data ∧
      (check_skills_separation (.ok lines)).softCount = 0 ∧
      0 < (check_skills_separation (.ok lines)).techCount) ∨
    ((check_skills_separation (.ok lines)).score = 5 ∧
      (check_skills_separation (.ok lines)).status = "warning".data ∧
      0 < (check_skills_separation (.ok lines)).softCount ∧
      (check_skills_separation (.ok lines)).techCount = 0) ∨
    ((check_skills_separation (.ok lines)).score = 2 ∧
      (check_skills_separation (.ok lines)).status = "error".data ∧
      (check_skills_separation (.ok lines)).softCount = 0 ∧
      (check_skills_separation (.ok lines)).techCount = 0) := by
  rcases hb : skillsSepBuckets lines with ⟨soft, tech⟩
  simp only [check_skills_separation, hb]
  by_cases hs : soft = []
  · by_cases ht : tech = []
    · subst hs; subst ht
      rw [if_neg (by simp), if_neg (by simp), if_neg (by simp)]
      right; right; right
      exact ⟨rfl, rfl, rfl, rfl⟩
    · subst hs
      rw [if_neg (by simp), if_pos ht]
      right; left
      exact ⟨rfl, rfl, rfl, List.length_pos.mpr ht⟩
  · by_cases ht : tech = []
    · subst ht
      rw [if_neg (by simp), if_neg (by simp), if_pos hs]
      right; right; left
      exact ⟨rfl, rfl, List.length_pos.mpr hs, rfl⟩
    · rw [if_pos ⟨hs, ht⟩]
      left
      exact ⟨rfl, rfl, List.length_pos.mpr hs, List.length_pos.mpr ht⟩

theorem C5_skills_separation_scoring_witness :
    ((check_skills_separation (.ok ["Soft Skills".data, "Teamwork".data,
        "Technical Skills".data, "Python".data])).score = 10 ∧
      (check_skills_separation (.ok ["Soft Skills".data, "Teamwork".data,
        "Technical Skills".data, "Python".data])).status = "success".data ∧
      0 < (check_skills_separation (.ok ["Soft Skills".data, "Teamwork".data,
        "Technical Skills".data, "Python".data])).softCount ∧
      0 < (check_skills_separation (.ok ["Soft Skills".data, "Teamwork".data,
        "Technical Skills".data, "Python".data])).techCount) ∨
    ((check_skills_separation (.ok ["Soft Skills".data, "Teamwork".data,
        "Technical Skills".data, "Python".data])).score = 6 ∧
      (check_skills_separation (.ok ["Soft Skills".data, "Teamwork".data,
        "Technical Skills".data, "Python".data])).status = "warning".data ∧
      (check_skills_separation (.ok ["Soft Skills".data, "Teamwork".data,
        "Technical Skills".data, "Python".data])).softCount = 0 ∧
      0 < (check_skills_separation (.ok ["Soft Skills".data, "Teamwork".data,
        "Technical Skills".data, "Python".data])).techCount) ∨
    ((check_skills_separation (.ok ["Soft Skills".data, "Teamwork".data,
        "Technical Skills".data, "Python".data])).score = 5 ∧
      (check_skills_separation (.ok ["Soft Skills".data, "Teamwork".data,
        "Technical Skills".data, "Python".data])).status = "warning".data ∧
      0 < (check_skills_separation (.ok ["Soft Skills".data, "Teamwork".data,
        "Technical Skills".data, "Python".data])).softCount ∧
      (check_skills_separation (.ok ["Soft Skills".data, "Teamwork".data,
        "Technical Skills".data, "Python".data])).techCount = 0) ∨
    ((check_skills_separation (.ok ["Soft Skills".data, "Teamwork".data,
        "Technical Skills".data, "Python".data])).score = 2 ∧
      (check_skills_separation (.ok ["Soft Skills".data, "Teamwork".data,
        "Technical Skills".data, "Python".data])).status = "error".data ∧
      (check_skills_separation (.ok ["Soft Skills".data, "Teamwork".data,
        "Technical Skills".data, "Python".data])).softCount = 0 ∧
      (check_skills_separation (.ok ["Soft Skills".data, "Teamwork".data,
        "Technical Skills".data, "Python".data])).techCount = 0) :=
  C5_skills_separation_scoring
    ["Soft Skills".data, "Teamwork".data, "Technical Skills".data, "Python".data]

/-- C6 counterexample: the local part "cool1234" triggers exactly two of
the three red flags (informal word, long digit run — not excess symbols),
yet `check_professional_email` scores the email 6, not 8 as the claim's
"one or two flags → 8" requires, because the informal-word flag counts
two risk points. -/
theorem C6_email_two_flags_counterexample :
    emailFlagInformal "cool1234".data = true ∧
    emailFlagDigits "cool1234".data = true ∧
    emailFlagSymbols "cool1234".data = false ∧
    (check_professional_email (.ok "cool1234@gmail.com".data)).score = 6 ∧
    ((6 : ℚ) ≠ 8) := by
  refine ⟨rfl, rfl, rfl, rfl, by norm_num⟩

/-- C6 (amended): with no email in the text the criterion returns status
"error" and score 0; with an email present it scores by risk points over
the first email's lowercased local part — the informal-word flag adds two
points, the digit-run and symbol-excess flags one each — 10 for zero
points, 8 for one or two, 6 for three or more, and the triggered reasons
are enumerated in the result. -/
theorem C6_professional_email_scoring :
    (∀ t : Str, findEmails t = [] →
      (check_professional_email (.ok t)).status = "error".data ∧
      (check_professional_email (.ok t)).score = 0) ∧
    (∀ (t e : Str) (es : List Str), findEmails t = e :: es →
      (check_professional_email (.ok t)).status = "success".data ∧
      (check_professional_email (.ok t)).emails = e :: es ∧
      (check_professional_email (.ok t)).reasons =
        emailReasons (lowerStr (e.takeWhile (fun c => c ≠ '@'))) ∧
      (check_professional_email (.ok t)).score =
        (if emailRiskPoints (lowerStr (e.takeWhile (fun c => c ≠ '@'))) = 0 then 10
         else if emailRiskPoints (lowerStr (e.takeWhile (fun c => c ≠ '@'))) ≤ 2 then 8
         else 6)) ∧
    (∀ lp : Str, emailRiskPoints lp =
      (if emailFlagInformal lp then 2 else 0) + (if emailFlagDigits lp then 1 else 0) +
      (if emailFlagSymbols lp then 1 else 0)) := by
  refine ⟨?_, ?_, fun _ => rfl⟩
  · intro t h
    simp only [check_professional_email, h]
    exact ⟨by trivial, by trivial⟩
  · intro t e es h
    simp only [check_professional_email, h, decide_not]
    refine ⟨by trivial, by trivial, by trivial, ?_⟩
    split_ifs <;> rfl

theorem C6_professional_email_scoring_witness :
    (check_professional_email (.ok "Email: john.doe@gmail.com".data)).status
        = "success".data ∧
    (check_professional_email (.ok "Email: john.doe@gmail.com".data)).emails
        = "john.doe@gmail.com".data :: [] ∧
    (check_professional_email (.ok "Email: john.doe@gmail.com".data)).reasons =
      emailReasons (lowerStr ("john.doe@gmail.com".data.takeWhile (fun c => c ≠ '@'))) ∧
    (check_professional_email (.ok "Email: john.doe@gmail.com".data)).score =
      (if emailRiskPoints (lowerStr ("john.doe@gmail.com".data.takeWhile
          (fun c => c ≠ '@'))) = 0 then 10
       else if emailRiskPoints (lowerStr ("john.doe@gmail.com".data.takeWhile
          (fun c => c ≠ '@'))) ≤ 2 then 8
       else 6) :=
  C6_professional_email_scoring.2.1 "Email: john.doe@gmail.com".data
    "john.doe@gmail.com".data [] (by decide)

/-- C3: `estimate_cv_level` is an ordered cascade — an explicit intern
keyword wins outright regardless of numeric years; else a
junior/trainee/graduate keyword; else a senior-title keyword; else the
years-of-experience heuristic (≥5 Senior, ≥2 Mid); else Intern/Junior.
In particular a resume containing both "5+ years experience" and the word
"intern" classifies as Intern/Junior. -/
theorem C3_estimate_cv_level_cascade :
    (∀ t : Str, reTest reIntern (lowerStr t) = true →
        estimate_cv_level t = "intern_junior".data) ∧
    (∀ t : Str, reTest reIntern (lowerStr t) = false →
        reTest reJunior (lowerStr t) = true →
        estimate_cv_level t = "intern_junior".data) ∧
    (∀ t : Str, reTest reIntern (lowerStr t) = false →
        reTest reJunior (lowerStr t) = false →
        reTest reSenior (lowerStr t) = true →
        estimate_cv_level t = "senior".data) ∧
    (∀ t : Str, reTest reIntern (lowerStr t) = false →
        reTest reJunior (lowerStr t) = false →
        reTest reSenior (lowerStr t) = false →
        5 ≤ estimate_cv_years (lowerStr t) →
        estimate_cv_level t = "senior".data) ∧
    (∀ t : Str, reTest reIntern (lowerStr t) = false →
        reTest reJunior (lowerStr t) = false →
        reTest reSenior (lowerStr t) = false →
        2 ≤ estimate_cv_years (lowerStr t) → estimate_cv_years (lowerStr t) < 5 →
        estimate_cv_level t = "mid".data) ∧
    (∀ t : Str, reTest reIntern (lowerStr t) = false →
        reTest reJunior (lowerStr t) = false →
        reTest reSenior (lowerStr t) = false →
        estimate_cv_years (lowerStr t) < 2 →
        estimate_cv_level t = "intern_junior".data) ∧
    (estimate_cv_years (lowerStr
        "Worked 5+ years experience in software; now an intern at Acme".data) = 5 ∧
     estimate_cv_level
        "Worked 5+ years experience in software; now an intern at Acme".data
        = "intern_junior".data) := by
  refine ⟨?_, ?_, ?_, ?_, ?_, ?_, by decide, by decide⟩
  all_goals intro t
  · intro h1
    by_cases h0 : t = []
    · subst h0; rw [show lowerStr [] = ([] : Str) from rfl] at h1
      exact absurd h1 (by decide)
    · rw [estimate_cv_level, if_neg h0]
      simp only [h1, if_true]
  · intro h1 h2
    by_cases h0 : t = []
    · subst h0; rw [show lowerStr [] = ([] : Str) from rfl] at h2
      exact absurd h2 (by decide)
    · rw [estimate_cv_level, if_neg h0]
      simp only [h1, h2, if_true, if_false, Bool.false_eq_true]
  · intro h1 h2 h3
    by_cases h0 : t = []
    · subst h0; rw [show lowerStr [] = ([] : Str) from rfl] at h3
      exact absurd h3 (by decide)
    · rw [estimate_cv_level, if_neg h0]
      simp only [h1, h2, h3, if_true, if_false, Bool.false_eq_true]
  · intro h1 h2 h3 h4
    by_cases h0 : t = []
    · subst h0
      rw [show lowerStr [] = ([] : Str) from rfl] at h4
      exact absurd h4 (by decide)
    · rw [estimate_cv_level, if_neg h0]
      simp only [h1, h2, h3, Bool.false_eq_true, if_false]
      rw [if_pos h4]
  · intro h1 h2 h3 h4 h5
    by_cases h0 : t = []
    · subst h0
      rw [show lowerStr [] = ([] : Str) from rfl] at h4
      exact absurd h4 (by decide)
    · rw [estimate_cv_level, if_neg h0]
      simp only [h1, h2, h3, Bool.false_eq_true, if_false]
      rw [if_neg (by omega), if_pos h4]
  · intro h1 h2 h3 h4
    by_cases h0 : t = []
    · subst h0
      rw [estimate_cv_level, if_pos rfl]
    · rw [estimate_cv_level, if_neg h0]
      simp only [h1, h2, h3, Bool.false_eq_true, if_false]
      rw [if_neg (by omega), if_neg (by omega)]

theorem C3_estimate_cv_level_cascade_witness :
    estimate_cv_level "Senior intern with 7+ years experience".data
      = "intern_junior".data :=
  C3_estimate_cv_level_cascade.1 "Senior intern with 7+ years experience".data (by decide)

/-- C4: a job titled "Senior Backend Engineer" (no intern/junior keyword,
no minimum-years phrase) classifies as senior; strict mode keeps exactly
the jobs whose level equals the CV level — so that job is excluded for an
Intern/Junior candidate — and loose mode keeps the allowed sets
Intern/Junior→{Intern/Junior, Mid}, Mid→all three, Senior→{Mid, Senior}. -/
theorem C4_seniority_classification_and_filtering :
    classify_job_level "Senior Backend Engineer".data [] = "senior".data ∧
    reTest reIntern (lowerStr ("Senior Backend Engineer".data ++ ' ' :: [])) = false ∧
    reTest reJunior (lowerStr ("Senior Backend Engineer".data ++ ' ' :: [])) = false ∧
    jobMinYears (lowerStr ("Senior Backend Engineer".data ++ ' ' :: [])) = none ∧
    (∀ (jobs : List Job) (cvLevel mode : Str), mode ≠ "loose".data →
      ∀ j, j ∈ apply_seniority_handling jobs cvLevel mode ↔
        j ∈ jobs ∧ jobLevelOf j = cvLevel) ∧
    (∀ (jobs : List Job) (j : Job),
      j ∈ apply_seniority_handling jobs "intern_junior".data "loose".data ↔
        j ∈ jobs ∧ (jobLevelOf j = "intern_junior".data ∨ jobLevelOf j = "mid".data)) ∧
    (∀ (jobs : List Job) (j : Job),
      j ∈ apply_seniority_handling jobs "mid".data "loose".data ↔
        j ∈ jobs ∧ (jobLevelOf j = "intern_junior".data ∨ jobLevelOf j = "mid".data ∨
          jobLevelOf j = "senior".data)) ∧
    (∀ (jobs : List Job) (j : Job),
      j ∈ apply_seniority_handling jobs "senior".data "loose".data ↔
        j ∈ jobs ∧ (jobLevelOf j = "mid".data ∨ jobLevelOf j = "senior".data)) ∧
    apply_seniority_handling [seniorJob] "intern_junior".data "filter".data = [] := by
  refine ⟨by decide, by decide, by decide, by decide, ?_, ?_, ?_, ?_, by decide⟩
  · intro jobs cvLevel mode hmode j
    rw [apply_seniority_handling, if_neg hmode]
    simp [List.mem_filter]
  · intro jobs j
    rw [apply_seniority_handling, if_pos rfl]
    simp [List.mem_filter, seniorityAllowed]
  · intro jobs j
    rw [apply_seniority_handling, if_pos rfl]
    rw [seniorityAllowed, if_neg (by decide), if_pos rfl]
    simp [List.mem_filter]
  · intro jobs j
    rw [apply_seniority_handling, if_pos rfl]
    rw [seniorityAllowed, if_neg (by decide), if_neg (by decide), if_pos rfl]
    simp [List.mem_filter]

theorem C4_seniority_filtering_witness :
    seniorJob ∈ apply_seniority_handling [seniorJob] "senior".data "filter".data ↔
      seniorJob ∈ [seniorJob] ∧ jobLevelOf seniorJob = "senior".data :=
  (C4_seniority_classification_and_filtering.2.2.2.2.1 [seniorJob] "senior".data
    "filter".data (by decide)) seniorJob

/-- C8: every element of `clean_skill_list`'s output is a canonical entry
of the known skill vocabulary and never an employment-level word; the
output is deduplicated (no duplicates, a sublist of the normalized
inputs, so first-seen order is preserved); and
`clean_skill_list ["React", "react", "REACT "] = ["react"]`. -/
theorem C8_clean_skill_list_canonical :
    (∀ (inp : SkillsInput) (s : Str), s ∈ clean_skill_list inp →
        knownTechSkills.contains s = true ∧
        genericEmploymentWords.contains s = false) ∧
    (∀ inp : SkillsInput, (clean_skill_list inp).Nodup) ∧
    (∀ inp : SkillsInput, List.Sublist (clean_skill_list inp)
        ((skillsInputList inp).map normalize_token)) ∧
    clean_skill_list (.ofList ["React".data, "react".data, "REACT ".data])
      = ["react".data] := by
  have hstep : ∀ x y, cleanSkillStep x = some y →
      y = normalize_token x ∧ knownTechSkills.contains y = true ∧
      genericEmploymentWords.contains y = false := by
    intro x y h
    rw [cleanSkillStep] at h
    split_ifs at h with h1 h2 h3
    · simp only [Option.some.injEq] at h
      subst h
      exact ⟨rfl, h3, by simpa using h2⟩
  refine ⟨?_, ?_, ?_, by decide⟩
  · intro inp s hs
    rw [clean_skill_list, mem_dedupKeepFirst] at hs
    obtain ⟨a, _, ha⟩ := List.mem_filterMap.mp hs
    exact (hstep a s ha).2
  · intro inp
    exact dedupKeepFirst_nodup _
  · intro inp
    exact (dedupKeepFirst_sublist _).trans
      (filterMap_sublist_map cleanSkillStep normalize_token
        (fun x y h => (hstep x y h).1) _)

theorem C8_clean_skill_list_canonical_witness :
    knownTechSkills.contains "react".data = true ∧
    genericEmploymentWords.contains "react".data = false :=
  C8_clean_skill_list_canonical.1
    (.ofList ["React".data, "react".data, "REACT ".data]) "react".data (by decide)

/-- C10: when no canonical skills can be extracted from the resume (the
cleaned union of keyword-validator hits, free-text detection and GitHub
evidence is empty), `get_job_recommendations` returns the empty list for
every job corpus, location filter, activity window and seniority mode —
no ranking is attempted from the level-hint phrase alone. -/
theorem C10_no_skills_no_recommendations
    (df : Option (List Job)) (results : CvResults) (cvText loc mode : Str)
    (topN : Nat) (pd : Str → Option ℤ) (today : ℤ)
    (tfidf : List Str → Str → List ℚ)
    (h : build_user_skills_from_cv results cvText = []) :
    get_job_recommendations df results cvText loc topN mode pd today tfidf = [] := by
  cases df with
  | none => rfl
  | some df0 =>
    rw [get_job_recommendations]
    by_cases h0 : df0 = []
    · rw [if_pos h0]
    · rw [if_neg h0, h, if_pos rfl]

theorem C10_no_skills_no_recommendations_witness :
    get_job_recommendations (some [plainJob]) emptyCvResults [] "All".data 5
      "filter".data (fun _ => some 0) 0 (fun _ _ => [1/7]) = [] :=
  C10_no_skills_no_recommendations (some [plainJob]) emptyCvResults [] "All".data
    "filter".data 5 (fun _ => some 0) 0 (fun _ _ => [1/7]) (by decide)

theorem locationStage_nil (loc : Str) : locationStage loc [] = [] := by
  rw [locationStage]; split <;> rfl

theorem filter_active_nil (pd : Str → Option ℤ) (today : ℤ) :
    filter_active_jobs pd today [] = [] := rfl

theorem apply_seniority_handling_nil (cv mode : Str) :
    apply_seniority_handling [] cv mode = [] := by
  rw [apply_seniority_handling]; split <;> rfl

theorem scoreJobs_nil (us : List Str) (sims : List ℚ) : scoreJobs us [] sims = [] := rfl

theorem rankScored_nil (topN : Nat) : rankScored [] topN = [] := by
  rw [rankScored]
  rw [show List.insertionSort scoreGE [] = [] from rfl]
  rw [show dedupByTitleCompany [] [] = [] from rfl]
  exact List.take_nil

/-- The recommendation pipeline, written out stage by stage: with a
non-empty extracted skill set, `get_job_recommendations` returns the
ranked, deduplicated, truncated scored list mapped to match records. -/
theorem get_job_recommendations_eq (df0 : List Job) (results : CvResults)
    (cvText loc mode : Str) (topN : Nat) (pd : Str → Option ℤ) (today : ℤ)
    (tfidf : List Str → Str → List ℚ)
    (hus : build_user_skills_from_cv results cvText ≠ []) :
    get_job_recommendations (some df0) results cvText loc topN mode pd today tfidf
      = (rankScored
          (scoreJobs (build_user_skills_from_cv results cvText)
            (apply_seniority_handling
              (filter_active_jobs pd today (locationStage loc df0))
              (estimate_cv_level cvText) mode)
            (tfidf ((apply_seniority_handling
                (filter_active_jobs pd today (locationStage loc df0))
                (estimate_cv_level cvText) mode).map (fun j => j.jobText))
              (queryText (estimate_cv_level cvText)
                (build_user_skills_from_cv results cvText))))
          topN).map
        (mkJobMatch (estimate_cv_level cvText)
          (build_user_skills_from_cv results cvText)) := by
  simp only [get_job_recommendations]
  by_cases h0 : df0 = []
  · subst h0
    rw [if_pos rfl, locationStage_nil, filter_active_nil, apply_seniority_handling_nil]
    rw [scoreJobs_nil, rankScored_nil]
    rfl
  · rw [if_neg h0, if_neg hus]
    by_cases h1 : locationStage loc df0 = []
    · rw [h1, if_pos rfl, filter_active_nil, apply_seniority_handling_nil]
      rw [scoreJobs_nil, rankScored_nil]
      rfl
    · rw [if_neg h1]
      by_cases h2 : filter_active_jobs pd today (locationStage loc df0) = []
      · rw [h2, if_pos rfl, apply_seniority_handling_nil]
        rw [scoreJobs_nil, rankScored_nil]
        rfl
      · rw [if_neg h2]
        by_cases h3 : apply_seniority_handling
            (filter_active_jobs pd today (locationStage loc df0))
            (estimate_cv_level cvText) mode = []
        · rw [h3, if_pos rfl]
          rw [scoreJobs_nil, rankScored_nil]
          rfl
        · rw [if_neg h3]

/-- C1 (amended): for every loaded corpus and non-empty extracted skill
set, `get_job_recommendations` returns the scored job list ranked by
final score = 0.80 · TF-IDF similarity + 0.20 · skill-overlap ratio
(|jobSkills ∩ cvSkills| / max sizes, 0 for an empty cleaned job skill
set), sorted descending, deduplicated by (title, company) keeping the
first occurrence, truncated to topN; each entry's match percentage is the
final score × 100 clamped to [0, 100] and rounded to one decimal place
(half-to-even), with level Excellent at ≥ 70, Good at ≥ 50, else
Potential. -/
theorem C1_ranking_pipeline (df0 : List Job) (results : CvResults)
    (cvText loc mode : Str) (topN : Nat) (pd : Str → Option ℤ) (today : ℤ)
    (tfidf : List Str → Str → List ℚ)
    (hus : build_user_skills_from_cv results cvText ≠ []) :
    let us := build_user_skills_from_cv results cvText
    let cvLevel := estimate_cv_level cvText
    let df3 := apply_seniority_handling
      (filter_active_jobs pd today (locationStage loc df0)) cvLevel mode
    let sims := tfidf (df3.map (fun j => j.jobText)) (queryText cvLevel us)
    let scored := scoreJobs us df3 sims
    let ranked := rankScored scored topN
    get_job_recommendations (some df0) results cvText loc topN mode pd today tfidf
        = ranked.map (mkJobMatch cvLevel us) ∧
    List.Sorted scoreGE ranked ∧
    (ranked.map jobKey).Nodup ∧
    ranked.length ≤ topN ∧
    (∀ p ∈ ranked, (List.insertionSort scoreGE scored).find?
        (fun q => jobKey q = jobKey p) = some p) ∧
    (∀ p ∈ scored, ∃ j ∈ df3, ∃ sim ∈ sims,
        p = (j, sim * (80/100) + overlapRatio us j.jobSkillList * (20/100))) ∧
    (∀ p : Job × ℚ,
      (mkJobMatch cvLevel us p).matchPercentage
          = pyRound1 (min 100 (max 0 (p.2 * 100))) ∧
      (mkJobMatch cvLevel us p).matchLevel =
        (if pyRound1 (min 100 (max 0 (p.2 * 100))) ≥ 70 then "Excellent".data
         else if pyRound1 (min 100 (max 0 (p.2 * 100))) ≥ 50 then "Good".data
         else "Potential".data)) ∧
    (∀ sk : List Str, overlapRatio us sk =
      (if clean_skill_list (.ofList sk) = [] then 0
       else (((clean_skill_list (.ofList sk)).filter
                (fun s => us.contains s)).length : ℚ) /
            ((max (clean_skill_list (.ofList sk)).length us.length : Nat) : ℚ))) := by
  intro us cvLevel df3 sims scored ranked
  refine ⟨get_job_recommendations_eq df0 results cvText loc mode topN pd today tfidf hus,
    rankScored_sorted scored topN,
    rankScored_keys_nodup scored topN,
    rankScored_length_le scored topN,
    fun p hp => rankScored_keeps_first scored topN p hp,
    fun p hp => mem_zipWith _ df3 sims p hp,
    fun p => ⟨rfl, rfl⟩,
    fun sk => rfl⟩

/-- C1 counterexample: on a one-job corpus with TF-IDF similarity 1/7 and
an empty job skill list (overlap 0), the returned match percentage is
11.4 = 57/5, while the claimed value — the final score × 100 clamped to
[0, 100], with no rounding — is 80/7 = 11.428…; the claim omits the
source's rounding to one decimal place. -/
theorem C1_match_percentage_rounding_counterexample :
    (get_job_recommendations (some [plainJob]) emptyCvResults "python".data
        "All".data 5 "filter".data (fun _ => some 0) 0
        (fun _ _ => [1/7])).map (fun m => m.matchPercentage) = [57/5] ∧
    ((57 : ℚ)/5) ≠ min 100 (max 0 (((1 : ℚ)/7 * (80/100) + 0 * (20/100)) * 100)) := by
  constructor
  · rw [get_job_recommendations_eq _ _ _ _ _ _ _ _ _ (by decide)]
    rw [show apply_seniority_handling
        (filter_active_jobs (fun _ => some 0) 0
          (locationStage "All".data [plainJob]))
        (estimate_cv_level "python".data) "filter".data = [plainJob] from by decide]
    rw [show build_user_skills_from_cv emptyCvResults "python".data
        = ["python".data] from by decide]
    simp only [scoreJobs, List.zipWith_cons_cons, List.zipWith_nil_right,
      rankScored, List.insertionSort, List.orderedInsert, dedupByTitleCompany,
      List.map_cons, List.map_nil, List.take_succ_cons, List.take_nil,
      mkJobMatch, List.map]
    rw [show overlapRatio ["python".data] plainJob.jobSkillList = 0 from rfl]
    norm_num
    rw [pyRound1, roundHalfEven]
    rw [show (10:ℚ) * (80/7) = 800/7 by norm_num]
    rw [show ⌊(800:ℚ)/7⌋ = 114 from by
      rw [Int.floor_eq_iff]
      norm_num]
    rw [if_neg (by norm_num), round_eq]
    rw [show (800:ℚ)/7 + 1/2 = 1607/14 by norm_num]
    rw [show ⌊(1607:ℚ)/14⌋ = 114 from by
      rw [Int.floor_eq_iff]
      norm_num]
    norm_num
  · intro h
    rw [show min 100 (max 0 (((1 : ℚ)/7 * (80/100) + 0 * (20/100)) * 100)) = 80/7 by
      norm_num] at h
    norm_num at h

theorem C1_ranking_pipeline_witness :
    List.Sorted scoreGE (rankScored
      (scoreJobs (build_user_skills_from_cv emptyCvResults "python".data)
        (apply_seniority_handling
          (filter_active_jobs (fun _ => some 0) 0
            (locationStage "All".data [plainJob]))
          (estimate_cv_level "python".data) "filter".data)
        ((fun (_ : List Str) (_ : Str) => ([1/7] : List ℚ))
          ((apply_seniority_handling
            (filter_active_jobs (fun _ => some 0) 0
              (locationStage "All".data [plainJob]))
            (estimate_cv_level "python".data) "filter".data).map (fun j => j.jobText))
          (queryText (estimate_cv_level "python".data)
            (build_user_skills_from_cv emptyCvResults "python".data))))
      5) :=
  (C1_ranking_pipeline [plainJob] emptyCvResults "python".data "All".data
    "filter".data 5 (fun _ => some 0) 0 (fun _ _ => [1/7]) (by decide)).2.1

theorem C7_normalize_token_idempotent_witness :
    normalize_token (normalize_token "  JS ".data) = normalize_token "  JS ".data :=
  C7_normalize_token_idempotent "  JS ".data

theorem C9_extraction_failure_degrades_witness :
    (check_cv_page_count (.error "cannot open document".data)).status = "error".data ∧
    (check_cv_page_count (.error "cannot open document".data)).score = 0 ∧
    (check_professional_email (.error "cannot open document".data)).status
        = "error".data ∧
    (check_professional_email (.error "cannot open document".data)).score = 0 ∧
    (check_skills_separation (.error "cannot open document".data)).status
        = "error".data ∧
    (check_skills_separation (.error "cannot open document".data)).score = 0 ∧
    (check_formatting_quality (.error "cannot open document".data)).status
        = "error".data ∧
    (check_formatting_quality (.error "cannot open document".data)).score = 5 :=
  C9_extraction_failure_degrades "cannot open document".data
